import Mathlib

/-!
ErrorInjector: the segment catalog builder and the bit-error injector.

A shallow embedding of `readsmaps.c` (`readProcSmaps`) and `injector.c`
(`sdcInjectorStart`) together with the properties of the design document
that concern them.

Conventions of the embedding.

* `unsigned long` / `uintptr_t` / `uint64_t` values are natural numbers below
  `2 ^ 64`, `unsigned int` values are natural numbers below `2 ^ 32`; every
  operation that can wrap is written with an explicit `%`.
* C strings are `String`s; `strcmp(a, b) == 0` is `a = b` and
  `strstr(a, b) != NULL` is `strstr a b = true`.
* The smaps report is a list of lines.  A line is represented by what the three
  `sscanf` calls of `readProcSmaps` store when they are applied to it; `scanTail`
  computes the name that the header scan stores from the text of the line.
* The linked list `memoryMap` is a `List MapSegment` in list order.
* The operating system (page protections, `mprotect`, the faulting store) is a
  small explicit machine model.
-/

namespace ErrorInjector

/-! ## Machine arithmetic -/

/-- Truncation to `unsigned long` (64 bits). -/
def u64 (x : Nat) : Nat := x % 2 ^ 64

/-- Truncation to `unsigned int` (32 bits). -/
def u32 (x : Nat) : Nat := x % 2 ^ 32

/-- Addition of two `unsigned long` values. -/
def add64 (a b : Nat) : Nat := (a + b) % 2 ^ 64

/-- Subtraction of two `unsigned long` values (wraps below zero). -/
def sub64 (a b : Nat) : Nat := (a % 2 ^ 64 + 2 ^ 64 - b % 2 ^ 64) % 2 ^ 64

/-- Multiplication of two `unsigned int` values. -/
def mul32 (a b : Nat) : Nat := (a * b) % 2 ^ 32

/-! ## C strings -/

/-- Substring test on character lists. -/
def isInfixOf : List Char → List Char → Bool
  | needle, [] => needle.isEmpty
  | needle, c :: cs => needle.isPrefixOf (c :: cs) || isInfixOf needle cs

/-- The test `strstr(hay, needle) != NULL`. -/
def strstr (hay needle : String) : Bool := isInfixOf needle.toList hay.toList

/-! ## sdc.h -/

def PERM_READ : Nat := 0x1
def PERM_WRITE : Nat := 0x2
def PERM_EXEC : Nat := 0x4
def PERM_SHARED : Nat := 0x20
def PERM_PRIVATE : Nat := 0x10

/-- The record `MapSegment` of `sdc.h`; the `next` pointer is the list order. -/
structure MapSegment where
  beginAddress : Nat
  endAddress : Nat
  permissions : Nat
  name : String
  deriving DecidableEq, Repr

/-- The byte count `endAddress - beginAddress` in `unsigned long` arithmetic. -/
def MapSegment.size (s : MapSegment) : Nat := sub64 s.endAddress s.beginAddress

/-! ## The smaps report as seen through `sscanf` -/

/-- The four permission characters `perms[0..3]` of a header line. -/
structure Perms where
  p0 : Char
  p1 : Char
  p2 : Char
  p3 : Char
  deriving DecidableEq, Repr

/-- What the header `sscanf` stores for a line on which it matches at least
seven items.  The field `name` is the token stored through `%127s`; it is the
empty string exactly when no thirteenth item is matched, in which case the
buffer `name` is not written. -/
structure Header where
  beginAddr : Nat
  endAddr : Nat
  perms : Perms
  name : String
  deriving DecidableEq, Repr

/-- One line of the report: the outcome of each of the three scans.
`hdr = none` means the header scan matched fewer than seven items;
`size = none` / `rss = none` mean `"Size: %u"` / `"Rss: %u"` matched nothing. -/
structure Line where
  hdr : Option Header
  size : Option Nat
  rss : Option Nat
  deriving DecidableEq, Repr

/-- A region header line such as `00400000-0048a000 r-xp 00000000 fd:03 960637 /bin/app`. -/
def Line.header (b e : Nat) (p0 p1 p2 p3 : Char) (name : String) : Line :=
  { hdr := some { beginAddr := b, endAddr := e, perms := ⟨p0, p1, p2, p3⟩, name := name },
    size := none, rss := none }

/-- A line `Size: <kb> kB`. -/
def Line.sizeKb (kb : Nat) : Line := { hdr := none, size := some kb, rss := none }

/-- A line `Rss: <kb> kB`. -/
def Line.rssKb (kb : Nat) : Line := { hdr := none, size := none, rss := some kb }

/-- Any other line of the report (`Pss:`, `VmFlags:`, ...). -/
def Line.other : Line := { hdr := none, size := none, rss := none }

/-! ## readsmaps.c -/

/-- The globals shared by `readsmaps.c` and `injector.c`. -/
structure Globals where
  memoryMap : List MapSegment
  totalMemory : Nat
  totalReadMemory : Nat
  totalWriteMemory : Nat
  totalCodeMemory : Nat
  totalHeapMemory : Nat
  totalStackMemory : Nat
  totalAppDataMemory : Nat
  deriving DecidableEq, Repr

/-- The state of a freshly loaded library: `memoryMap = 0`, all counters `0`. -/
def Globals.initial : Globals :=
  { memoryMap := [], totalMemory := 0, totalReadMemory := 0, totalWriteMemory := 0,
    totalCodeMemory := 0, totalHeapMemory := 0, totalStackMemory := 0,
    totalAppDataMemory := 0 }

/-- The locals of `readProcSmaps` that live across loop iterations.
`absSize` and `rssSize` are not initialised by the source, so their initial
values are inputs of the model. -/
structure Locals where
  name : String
  appName : String
  absSize : Nat
  rssSize : Nat
  deriving DecidableEq, Repr

/-- The adjustment of `beginAddr` / `endAddr` to the resident set size
(`readsmaps.c`, lines 98-112). -/
def adjust (name : String) (perms : Perms) (absSize rssSize beginAddr endAddr : Nat) :
    Nat × Nat :=
  if rssSize < absSize then
    if strstr name "[stack]" then
      (sub64 endAddr (mul32 rssSize 1024), endAddr)
    else if perms.p2 = 'x' then
      (beginAddr, endAddr)
    else if strstr name "[heap]" then
      (beginAddr, add64 beginAddr (mul32 rssSize 1024))
    else if rssSize < absSize / 4 then
      (beginAddr, add64 beginAddr (mul32 rssSize 1024))
    else
      (beginAddr, endAddr)
  else
    (beginAddr, endAddr)

/-- The value of `newSeg->permissions` (lines 122-126). -/
def permissionsOf (perms : Perms) : Nat :=
  (if perms.p0 = 'r' then PERM_READ else 0) |||
  (if perms.p1 = 'w' then PERM_WRITE else 0) |||
  (if perms.p2 = 'x' then PERM_EXEC else 0) |||
  (if perms.p3 = 's' then PERM_SHARED else 0) |||
  (if perms.p3 = 'p' then PERM_PRIVATE else 0)

/-- The updates of the counters for a new segment (lines 135-151). -/
def count (g : Globals) (name appName : String) (permissions beginAddr endAddr : Nat) :
    Globals :=
  if permissions &&& (PERM_READ ||| PERM_WRITE ||| PERM_EXEC) = 0 then g
  else
    let sz := sub64 endAddr beginAddr
    { g with
      totalMemory := add64 g.totalMemory sz
      totalReadMemory :=
        if permissions &&& PERM_READ ≠ 0 then add64 g.totalReadMemory sz
        else g.totalReadMemory
      totalWriteMemory :=
        if permissions &&& PERM_WRITE ≠ 0 then add64 g.totalWriteMemory sz
        else g.totalWriteMemory
      totalCodeMemory :=
        if permissions &&& PERM_EXEC ≠ 0 then add64 g.totalCodeMemory sz
        else g.totalCodeMemory
      totalAppDataMemory :=
        if name = appName ∧ permissions &&& PERM_WRITE ≠ 0 then add64 g.totalAppDataMemory sz
        else g.totalAppDataMemory
      totalHeapMemory :=
        if name = "[heap]" ∧ permissions &&& PERM_WRITE ≠ 0 then add64 g.totalHeapMemory sz
        else g.totalHeapMemory
      totalStackMemory :=
        if name = "[stack]" ∧ permissions &&& PERM_WRITE ≠ 0 then add64 g.totalStackMemory sz
        else g.totalStackMemory }

/-- The buffer `name` after the header scan (line 76): `%127s` writes it only
when a thirteenth item is matched. -/
def scanName (h : Header) (loc : Locals) : String :=
  if h.name = "" then loc.name else h.name

/-- The buffer `appName` after lines 88-90. -/
def setAppName (appName name : String) : String :=
  if appName = "" ∧ name ≠ "none" then name else appName

/-- The locals after the two size lines have been scanned (lines 92-95). -/
def scanSizes (loc : Locals) (sizeLine rssLine : Line) : Locals :=
  { loc with
    absSize := match sizeLine.size with
      | some kb => u32 kb
      | none => loc.absSize
    rssSize := match rssLine.rss with
      | some kb => u32 kb
      | none => loc.rssSize }

/-- The locals of an iteration that gets past the three `continue` tests, once
both of its size lines have been read (lines 76-95). -/
def nextLocals (loc : Locals) (h : Header) (sizeLine rssLine : Line) : Locals :=
  scanSizes
    { loc with name := scanName h loc, appName := setAppName loc.appName (scanName h loc) }
    sizeLine rssLine

/-- The record `newSeg` (lines 119-128). -/
def newSegment (loc : Locals) (h : Header) : MapSegment :=
  let be := adjust loc.name h.perms loc.absSize loc.rssSize (u64 h.beginAddr) (u64 h.endAddr)
  { beginAddress := be.1, endAddress := be.2, permissions := permissionsOf h.perms,
    name := loc.name }

/-- Lines 129-151: `newSeg` is linked at the tail and counted. -/
def appendSegment (g : Globals) (appName : String) (newSeg : MapSegment) : Globals :=
  count { g with memoryMap := g.memoryMap ++ [newSeg] } newSeg.name appName
    newSeg.permissions newSeg.beginAddress newSeg.endAddress

/-- The `while (fgets ...)` loop of `readProcSmaps` (lines 72-152) over the
remaining lines of the report. -/
def readLoop : List Line → Locals → Globals → Globals
  | [], _, g => g
  | line :: rest, loc, g =>
    match line.hdr with
    | none => readLoop rest loc g
    | some h =>
      let name := scanName h loc
      if strstr name "libsdc.so" then
        readLoop rest { loc with name := name } g
      else if h.perms.p0 = '-' ∧ h.perms.p1 = '-' ∧ h.perms.p2 = '-' then
        readLoop rest { loc with name := name } g
      else
        match rest with
        | sizeLine :: rssLine :: rest' =>
          let loc' := nextLocals loc h sizeLine rssLine
          readLoop rest' loc' (appendSegment g loc'.appName (newSegment loc' h))
        | _ => g

/-- The function `readProcSmaps`.  `file = none` is the case in which `fopen`
fails; `absSize0` and `rssSize0` are the indeterminate initial values of the two
size locals.  Returns the return value and the new globals. -/
def readProcSmaps (g : Globals) (file : Option (List Line)) (absSize0 rssSize0 : Nat) :
    Int × Globals :=
  match file with
  | none => (-1, g)
  | some lines =>
    -- lines 56-70: the old list is freed, two of the counters are zeroed
    let g0 := { g with memoryMap := [], totalMemory := 0, totalWriteMemory := 0 }
    (0, readLoop lines
      { name := "none", appName := "", absSize := u32 absSize0, rssSize := u32 rssSize0 } g0)

/-! ## The operating system as seen by `sdcInjectorStart` -/

def PROT_READ : Nat := 0x1
def PROT_WRITE : Nat := 0x2
def PROT_EXEC : Nat := 0x4

/-- The process memory: the 64-bit word stored at each address and the
protection bits of each page (indexed by the address of its first byte). -/
structure Machine where
  mem : Nat → Nat
  prot : Nat → Nat

/-- The system calls and stores issued by `sdcInjectorStart`, in program order. -/
inductive Event
  | mprotect (addr len prot : Nat)
  | store (addr value : Nat)
  deriving DecidableEq, Repr

/-- The call `mprotect(addr, len, prot)`.  `ok = false` is a failing call, which
changes nothing; a successful call sets the protection of the pages that start
in `[addr, addr + len)`. -/
def mprotect (ok : Bool) (m : Machine) (addr len prot : Nat) : Machine :=
  if ok then
    { m with prot := fun page => if addr ≤ page ∧ page < addr + len then prot else m.prot page }
  else m

/-- The first byte of the page that holds `addr`. -/
def pageOf (pageSize addr : Nat) : Nat := addr - addr % pageSize

/-- Whether a store to `addr` is permitted by the page protections. -/
def canStore (m : Machine) (pageSize addr : Nat) : Bool :=
  m.prot (pageOf pageSize addr) &&& PROT_WRITE ≠ 0

/-! ## injector.c -/

/-- The values of `injectMemoryType`. -/
inductive InjectMemoryType
  | injectALL
  | injectDATA
  | injectCODE
  | injectAPPDATA
  | injectHEAP
  | injectSTACK
  deriving DecidableEq, Repr

open InjectMemoryType

/-- The constant `addressMask = (~0)^0x7` (line 112): computed in `int`, then
converted to `unsigned long`. -/
def addressMask : Nat := (Int.xor (Int.not 0) 7 % 2 ^ 64).toNat

/-- The complement `~x` of an `unsigned long`. -/
def not64 (x : Nat) : Nat := 2 ^ 64 - 1 - x % 2 ^ 64

/-- The first value of `randomSize`: the counter of the chosen category
(lines 119-130). -/
def categoryTotal (ty : InjectMemoryType) (g : Globals) : Nat :=
  if ty = injectDATA then g.totalWriteMemory
  else if ty = injectCODE then g.totalCodeMemory
  else if ty = injectHEAP then g.totalHeapMemory
  else if ty = injectSTACK then g.totalStackMemory
  else if ty = injectAPPDATA then g.totalAppDataMemory
  else g.totalMemory

/-- The condition under which the walk counts a segment (lines 153-158). -/
def walkMatch (ty : InjectMemoryType) (map : MapSegment) : Bool :=
  decide (ty = injectALL) ||
  (decide (ty = injectDATA) && decide (map.permissions &&& PERM_WRITE ≠ 0)) ||
  (decide (ty = injectCODE) && decide (map.permissions &&& PERM_EXEC ≠ 0)) ||
  (decide (ty = injectAPPDATA) && decide (map.permissions &&& PERM_WRITE ≠ 0)) ||
  (decide (ty = injectSTACK) && decide (map.name = "[stack]")) ||
  (decide (ty = injectHEAP) && decide (map.name = "[heap]"))

/-- The loop `while (map && randomSize < randomAddress)` (lines 152-163).
Returns the final `map` (`none` for the null pointer) and `randomSize`. -/
def walk (ty : InjectMemoryType) (randomAddress : Nat) :
    List MapSegment → Nat → Option MapSegment × Nat
  | [], randomSize => (none, randomSize)
  | map :: next, randomSize =>
    if randomSize < randomAddress then
      if walkMatch ty map then
        let randomSize' := add64 randomSize map.size
        if randomSize' > randomAddress then (some map, randomSize')
        else walk ty randomAddress next randomSize'
      else walk ty randomAddress next randomSize
    else (some map, randomSize)

/-- The bit number `(random() >> 2) % 64` (line 143). -/
def randomBitOf (r : Nat) : Nat := (r >>> 2) % 64

/-- The mask `injectVal = 0x1L << randomBit` (line 187). -/
def injectValOf (randomBit : Nat) : Nat := u64 (1 <<< randomBit)

/-- The new word `*injectPtr ^ injectVal` (line 216). -/
def flip (word injectVal : Nat) : Nat := word ^^^ injectVal

/-- The value of `pagePerms` (lines 179-183). -/
def pagePermsOf (map : MapSegment) : Nat :=
  (if map.permissions &&& PERM_READ ≠ 0 then PROT_READ else 0) |||
  (if map.permissions &&& PERM_EXEC ≠ 0 then PROT_EXEC else 0)

/-- The value of `pagePtr` (line 178). -/
def pagePtrOf (systemPageSize injectPtr : Nat) : Nat :=
  injectPtr &&& not64 (sub64 systemPageSize 1)

/-- How a run of `sdcInjectorStart` ends. -/
inductive Outcome
  /-- The remainder `random() % randomSize` with `randomSize = 0`: an integer
  division by zero, which the source does not guard against. -/
  | divideByZero
  /-- The return at line 166 ("failed to find map"). -/
  | noMap
  /-- The store at line 216 hit a page without write permission. -/
  | segv (map : MapSegment) (injectPtr : Nat) (events : List Event)
  /-- The normal return at line 227. -/
  | done (m : Machine) (map : MapSegment) (injectPtr randomBit : Nat) (events : List Event)

/-- The resolution of the drawn offset to a segment and an address
(lines 140-175, without the draw of the bit). -/
def resolve (ty : InjectMemoryType) (memoryMap : List MapSegment) (randomAddress : Nat) :
    Option (MapSegment × Nat) :=
  match walk ty randomAddress memoryMap 0 with
  | (none, _) => none
  | (some map, randomSize) =>
    let randomSize := sub64 randomSize map.size
    let randomAddress := sub64 randomAddress randomSize
    let randomAddress := add64 randomAddress map.beginAddress
    some (map, randomAddress &&& addressMask)

/-- The mutation of the word at `injectPtr` (lines 176-220).  `ok1` and `ok2`
tell whether the first and the second `mprotect` call succeed; their return
values are not inspected by the source. -/
def protectedWrite (m : Machine) (systemPageSize : Nat) (ok1 ok2 : Bool)
    (map : MapSegment) (injectPtr randomBit : Nat) : Outcome :=
  let readOnly : Bool := map.permissions &&& PERM_WRITE = 0
  let pagePtr := pagePtrOf systemPageSize injectPtr
  let pagePerms := pagePermsOf map
  let m1 := if readOnly then mprotect ok1 m pagePtr systemPageSize (pagePerms ||| PROT_WRITE)
    else m
  let ev1 := if readOnly then [Event.mprotect pagePtr systemPageSize (pagePerms ||| PROT_WRITE)]
    else []
  let injectVal := injectValOf randomBit
  if canStore m1 systemPageSize injectPtr then
    let newVal := flip (m1.mem injectPtr) injectVal
    let m2 : Machine :=
      { m1 with mem := fun a => if a = injectPtr then newVal else m1.mem a }
    let ev2 := ev1 ++ [Event.store injectPtr newVal]
    if readOnly then
      Outcome.done (mprotect ok2 m2 pagePtr systemPageSize pagePerms) map injectPtr randomBit
        (ev2 ++ [Event.mprotect pagePtr systemPageSize pagePerms])
    else
      Outcome.done m2 map injectPtr randomBit ev2
  else
    Outcome.segv map injectPtr ev1

/-- What `sdcInjectorStart` takes from its environment: the smaps report
(`none` when it cannot be opened), the indeterminate initial values of the size
locals of `readProcSmaps`, the two values returned by `random()`, and the
success of the two `mprotect` calls. -/
structure Env where
  file : Option (List Line)
  absSize0 : Nat
  rssSize0 : Nat
  random1 : Nat
  random2 : Nat
  mprotectOk1 : Bool
  mprotectOk2 : Bool

/-- The injection itself, from a given catalog (lines 118-227). -/
def inject (ty : InjectMemoryType) (systemPageSize : Nat) (g : Globals) (m : Machine)
    (random1 random2 : Nat) (ok1 ok2 : Bool) : Outcome :=
  let randomSize := categoryTotal ty g
  if randomSize = 0 then Outcome.divideByZero
  else
    let randomAddress := (random1 % randomSize) &&& addressMask
    let randomBit := randomBitOf random2
    match resolve ty g.memoryMap randomAddress with
    | none => Outcome.noMap
    | some (map, injectPtr) => protectedWrite m systemPageSize ok1 ok2 map injectPtr randomBit

/-- The function `sdcInjectorStart` after the sleep: the catalog is rebuilt
(the return value of `readProcSmaps` is not inspected), then one bit is
injected.  Returns the outcome and the globals. -/
def sdcInjectorStart (ty : InjectMemoryType) (systemPageSize : Nat) (g : Globals)
    (m : Machine) (env : Env) : Outcome × Globals :=
  let g' := (readProcSmaps g env.file env.absSize0 env.rssSize0).2
  (inject ty systemPageSize g' m env.random1 env.random2 env.mprotectOk1 env.mprotectOk2, g')

/-- The memory after a run; a run that ends in a fault or at line 166 has not
stored anything. -/
def Outcome.memory (m : Machine) : Outcome → Nat → Nat
  | Outcome.done m' _ _ _ _ => m'.mem
  | _ => m.mem

/-- The resolved address `injectPtr` of a run that reached line 175. -/
def Outcome.address : Outcome → Option Nat
  | Outcome.done _ _ p _ _ => some p
  | Outcome.segv _ p _ => some p
  | _ => none

/-- The segment `map` of a run that reached line 175. -/
def Outcome.segment : Outcome → Option MapSegment
  | Outcome.done _ map _ _ _ => some map
  | Outcome.segv map _ _ => some map
  | _ => none

/-- The calls and stores issued by a run. -/
def Outcome.events : Outcome → List Event
  | Outcome.done _ _ _ _ ev => ev
  | Outcome.segv _ _ ev => ev
  | _ => []

/-- Whether the run ends in a fault of the host process. -/
def Outcome.crashed : Outcome → Bool
  | Outcome.divideByZero => true
  | Outcome.segv _ _ _ => true
  | _ => false

/-- Whether the run ends by reporting a failure and returning (line 166). -/
def Outcome.reportedFailure : Outcome → Bool
  | Outcome.noMap => true
  | _ => false

/-! ## Vocabulary of the design document -/

/-- The segment has at least one of the read, write and execute permissions. -/
def hasAccess (s : MapSegment) : Bool :=
  decide (s.permissions &&& (PERM_READ ||| PERM_WRITE ||| PERM_EXEC) ≠ 0)

/-- The segment is readable. -/
def readable (s : MapSegment) : Bool := decide (s.permissions &&& PERM_READ ≠ 0)

/-- The segment is writable. -/
def writable (s : MapSegment) : Bool := decide (s.permissions &&& PERM_WRITE ≠ 0)

/-- The segment is executable. -/
def executable (s : MapSegment) : Bool := decide (s.permissions &&& PERM_EXEC ≠ 0)

/-- The segment is writable and carries the given name. -/
def writableNamed (name : String) (s : MapSegment) : Bool :=
  writable s && decide (s.name = name)

/-- The first name other than `"none"` in a catalog, if there is one. -/
def firstAppName (cat : List MapSegment) : Option String :=
  (cat.find? (fun d => decide (d.name ≠ "none"))).map (fun d => d.name)

/-- The segment is writable and carries the first name other than `"none"` of
the catalog. -/
def isAppData (cat : List MapSegment) (s : MapSegment) : Bool :=
  writable s && decide (firstAppName cat = some s.name)

/-- The sum, in `unsigned long` arithmetic, of the sizes of the segments of a
catalog that satisfy `p`. -/
def sum64 (p : MapSegment → Bool) (cat : List MapSegment) : Nat :=
  ((cat.filter p).map MapSegment.size).sum % 2 ^ 64

/-- The exact sum of the sizes of the segments that the walk counts. -/
def matchSum (ty : InjectMemoryType) (cat : List MapSegment) : Nat :=
  ((cat.filter (walkMatch ty)).map MapSegment.size).sum

/-- The seven counters agree with the catalog they are stored with. -/
structure CountersAgree (g : Globals) : Prop where
  total : g.totalMemory = sum64 hasAccess g.memoryMap
  read : g.totalReadMemory = sum64 readable g.memoryMap
  write : g.totalWriteMemory = sum64 writable g.memoryMap
  code : g.totalCodeMemory = sum64 executable g.memoryMap
  appdata : g.totalAppDataMemory = sum64 (isAppData g.memoryMap) g.memoryMap
  heap : g.totalHeapMemory = sum64 (writableNamed "[heap]") g.memoryMap
  stack : g.totalStackMemory = sum64 (writableNamed "[stack]") g.memoryMap

/-! ## Concrete reports, machines and runs -/

/-- A memory of zero words in which the page at `page` has protection `prot`
and no other page is mapped. -/
def onePageMachine (page prot : Nat) : Machine :=
  { mem := fun _ => 0, prot := fun p => if p = page then prot else 0 }

/-- The environment of a run in which both `mprotect` calls succeed. -/
def envOf (file : List Line) (r1 r2 : Nat) : Env :=
  { file := some file, absSize0 := 0, rssSize0 := 0, random1 := r1, random2 := r2,
    mprotectOk1 := true, mprotectOk2 := true }

/-- A report with one fully resident read-write region of the application. -/
def dataReport : List Line :=
  [Line.header 0x1000 0x2000 'r' 'w' '-' 'p' "/bin/app", Line.sizeKb 4, Line.rssKb 4]

/-- A report with one fully resident read-execute region of the application. -/
def codeReport : List Line :=
  [Line.header 0x1000 0x2000 'r' '-' 'x' 'p' "/bin/app", Line.sizeKb 4, Line.rssKb 4]

/-- The run with `SDC_MEMTYPE=data` on `dataReport` whose first draw is `0`. -/
def runDrawZero : Outcome × Globals :=
  sdcInjectorStart injectDATA 4096 Globals.initial (onePageMachine 0x1000 3)
    (envOf dataReport 0 0)

/-- The run with `SDC_MEMTYPE=heap` on `dataReport`, which has no heap. -/
def runNoHeap : Outcome × Globals :=
  sdcInjectorStart injectHEAP 4096 Globals.initial (onePageMachine 0x1000 3)
    (envOf dataReport 5 7)

/-- The run with `SDC_MEMTYPE=code` on `codeReport` in which the first
`mprotect` call fails. -/
def runElevationFails : Outcome × Globals :=
  sdcInjectorStart injectCODE 4096 Globals.initial (onePageMachine 0x1000 5)
    { file := some codeReport, absSize0 := 0, rssSize0 := 0, random1 := 0x800, random2 := 0,
      mprotectOk1 := false, mprotectOk2 := true }

/-- The read-execute segment `[0x1000, 0x2000)` of the application. -/
def codeSegment : MapSegment :=
  { beginAddress := 0x1000, endAddress := 0x2000,
    permissions := PERM_READ ||| PERM_EXEC ||| PERM_PRIVATE, name := "/bin/app" }

/-- The header of a heap region `[0x7000, 0x9000)`. -/
def heapHeader : Header :=
  { beginAddr := 0x7000, endAddr := 0x9000, perms := ⟨'r', 'w', '-', 'p'⟩, name := "[heap]" }

/-- The relation between the buffers `name` and `appName` of `readProcSmaps`
and the catalog at the head of its loop: `name` is never empty, and `appName` is
the first name other than `"none"` of the catalog, or empty if there is none. -/
structure Linked (loc : Locals) (g : Globals) : Prop where
  name_ne : loc.name ≠ ""
  unset : loc.appName = "" → firstAppName g.memoryMap = none
  set : loc.appName ≠ "" → firstAppName g.memoryMap = some loc.appName

/-- A report with two fully resident read-write regions of 4096 and 8192 bytes. -/
def twoDataReport : List Line :=
  [Line.header 0x1000 0x2000 'r' 'w' '-' 'p' "/bin/app", Line.sizeKb 4, Line.rssKb 4,
   Line.header 0x4000 0x6000 'r' 'w' '-' 'p' "/bin/app", Line.sizeKb 8, Line.rssKb 8]

/-- The globals after `twoDataReport` has been read from the initial state. -/
def twoDataGlobals : Globals := (readProcSmaps Globals.initial (some twoDataReport) 0 0).2

/-- The three lines of the application's data region in `ownModuleReport`. -/
def appLines : List Line :=
  [Line.header 0x1000 0x2000 'r' 'w' '-' 'p' "/bin/app", Line.sizeKb 4, Line.rssKb 4]

/-- The lines that follow the header of the injector library in
`ownModuleReport`; the last region is an anonymous mapping. -/
def afterOwnModule : List Line :=
  [Line.sizeKb 16, Line.rssKb 16,
   Line.header 0x7f4000 0x7f5000 'r' 'w' '-' 'p' "", Line.sizeKb 4, Line.rssKb 4]

/-- A report in which the injector library is mapped after the application. -/
def ownModuleReport : List Line :=
  appLines ++ Line.header 0x7f0000 0x7f4000 'r' '-' 'x' 'p' "/usr/lib/libsdc.so" ::
    afterOwnModule

/-! ## injector.c: the constructor -/

/-- The test `strcasecmp(a, b) == 0` (comparison without regard to the case of
ASCII letters). -/
def strcasecmp (a b : String) : Bool :=
  a.toList.map Char.toLower == b.toList.map Char.toLower

/-- Conversion of a `long` to `int` (32 bits, two's complement). -/
def toInt32 (x : Int) : Int := (x + 2 ^ 31) % 2 ^ 32 - 2 ^ 31

/-- The environment variables read by `sdcTesterInitialize`; `none` is an unset
variable.  The numeric variables carry the value that `atoi` (ranks) or
`strtol(enval, 0, 0)` (delay) returns for their text. -/
structure Environ where
  SDC_MPIONLY : Option String
  OMPI_COMM_WORLD_RANK : Option Int
  OMPI_MCA_ns_nds_vpid : Option Int
  SDC_MPIRANK : Option Int
  SDC_DELAY : Option Int
  SDC_MEMTYPE : Option String

/-- The file-scope variables of `injector.c` that hold the configuration. -/
structure Statics where
  myMPIRank : Int
  waitSecondsUntilInject : Int
  systemPageSize : Nat
  injectMemoryType : InjectMemoryType
  deriving DecidableEq, Repr

/-- The static initialisers (lines 69-76). -/
def Statics.initial : Statics :=
  { myMPIRank := -1, waitSecondsUntilInject := 3, systemPageSize := 0,
    injectMemoryType := injectALL }

/-- The lookup of the rank of this process (lines 280-282 and 294-296). -/
def rankOf (env : Environ) : Option Int :=
  match env.OMPI_COMM_WORLD_RANK with
  | some r => some r
  | none => env.OMPI_MCA_ns_nds_vpid

/-- Lines 310-317: the handling of `SDC_DELAY`. -/
def setDelay (s : Statics) (env : Environ) : Statics :=
  match env.SDC_DELAY with
  | none => s
  | some ival =>
    if ival ≥ 0 ∨ ival ≤ 9999999 then { s with waitSecondsUntilInject := toInt32 ival }
    else s

/-- Lines 318-335: the handling of `SDC_MEMTYPE`. -/
def setMemType (s : Statics) (env : Environ) : Statics :=
  match env.SDC_MEMTYPE with
  | some enval =>
    if strcasecmp enval "all" then { s with injectMemoryType := injectALL }
    else if strcasecmp enval "data" then { s with injectMemoryType := injectDATA }
    else if strcasecmp enval "code" then { s with injectMemoryType := injectCODE }
    else if strcasecmp enval "appdata" then { s with injectMemoryType := injectAPPDATA }
    else if strcasecmp enval "heap" then { s with injectMemoryType := injectHEAP }
    else if strcasecmp enval "stack" then { s with injectMemoryType := injectSTACK }
    else s
  | none => { s with injectMemoryType := injectDATA }

/-- The function `sdcTesterInitialize` (lines 266-352), without the name of the
log file.  `pageSize` is the value of `getpagesize()`.  Returns the statics and
whether the end of the function, where the injector thread is created, is
reached. -/
def sdcTesterInitialize (s : Statics) (env : Environ) (pageSize : Nat) : Statics × Bool :=
  let s := { s with systemPageSize := pageSize }
  if env.SDC_MPIONLY.isSome ∧ (rankOf env).isNone then (s, false)
  else
    match env.SDC_MPIRANK with
    | none => (setMemType (setDelay s env) env, true)
    | some desiredRank =>
      match rankOf env with
      | none => (s, false)
      | some actualRank =>
        if desiredRank ≠ actualRank then (s, false)
        else (setMemType (setDelay { s with myMPIRank := actualRank } env) env, true)

/-- The environment in which only `SDC_DELAY` and `SDC_MEMTYPE` may be set. -/
def environOf (delay : Option Int) (memtype : Option String) : Environ :=
  { SDC_MPIONLY := none, OMPI_COMM_WORLD_RANK := none, OMPI_MCA_ns_nds_vpid := none,
    SDC_MPIRANK := none, SDC_DELAY := delay, SDC_MEMTYPE := memtype }

/-- The environment of a run in which the smaps report cannot be opened. -/
def envNoFile (r1 r2 : Nat) : Env :=
  { file := none, absSize0 := 0, rssSize0 := 0, random1 := r1, random2 := r2,
    mprotectOk1 := true, mprotectOk2 := true }

/-- The run of a fresh process with `SDC_MEMTYPE=data` in which the smaps report
cannot be opened. -/
def runMapsUnavailable : Outcome × Globals :=
  sdcInjectorStart injectDATA 4096 Globals.initial (onePageMachine 0x1000 3) (envNoFile 0x800 0)

/-- The same run started from the globals left by an earlier successful read of
`dataReport`. -/
def runMapsUnavailableStale : Outcome × Globals :=
  sdcInjectorStart injectDATA 4096 (readProcSmaps Globals.initial (some dataReport) 0 0).2
    (onePageMachine 0x1000 3) (envNoFile 0x800 0)

/-- A report with a read-write region of the application and one of a shared
library. -/
def appAndLibReport : List Line :=
  [Line.header 0x1000 0x2000 'r' 'w' '-' 'p' "/bin/app", Line.sizeKb 4, Line.rssKb 4,
   Line.header 0x7f0000 0x7f2000 'r' 'w' '-' 'p' "/lib/libc.so.6", Line.sizeKb 8, Line.rssKb 8]

/-- The globals after `appAndLibReport` has been read from the initial state. -/
def appAndLibGlobals : Globals := (readProcSmaps Globals.initial (some appAndLibReport) 0 0).2

/-- A report in which an anonymous region (no name on its header line) follows a
region of the application. -/
def anonAfterAppReport : List Line :=
  [Line.header 0x1000 0x2000 'r' '-' 'x' 'p' "/bin/app", Line.sizeKb 4, Line.rssKb 4,
   Line.header 0x5000 0x6000 'r' 'w' '-' 'p' "", Line.sizeKb 4, Line.rssKb 4]

/-- A report with a heap of 8 GiB of which 4 GiB are resident. -/
def hugeHeapReport : List Line :=
  [Line.header 0x10000000 0x210000000 'r' 'w' '-' 'p' "[heap]", Line.sizeKb 8388608,
   Line.rssKb 4194304]

/-- The locals after the size lines `Size: 8 kB` and `Rss: 4 kB` of a region of
the application have been scanned. -/
def appLocals : Locals := { name := "/bin/app", appName := "/bin/app", absSize := 8, rssSize := 4 }

/-- The test `isspace(c)` in the C locale: blank, tab, newline, vertical tab,
form feed, carriage return. -/
def isspace (c : Char) : Bool := c = ' ' || (9 ≤ c.toNat && c.toNat ≤ 13)

/-- The scan of `%ld`: an optional sign and at least one decimal digit.  Returns
the input that follows the number, `none` when no number is matched. -/
def scanLong (input : List Char) : Option (List Char) :=
  let body := match input with
    | '-' :: cs => cs
    | '+' :: cs => cs
    | cs => cs
  match body with
  | c :: _ => if c.isDigit then some (body.dropWhile Char.isDigit) else none
  | [] => none

/-- The token that the header scan stores into `name` for a line whose text
after the offset field is `tail`, following the rest of the format,
`" %c%c:%c%c %ld %127s"`: two characters, a colon, two characters, a decimal
number, then at most 127 characters up to the next blank.  The result is empty
when the scan stops before the thirteenth item. -/
def scanTail (tail : String) : String :=
  match tail.toList.dropWhile isspace with
  | _ :: _ :: ':' :: _ :: _ :: rest =>
    match scanLong (rest.dropWhile isspace) with
    | some rest' =>
      String.mk (((rest'.dropWhile isspace).takeWhile
        (fun c => !isspace c)).take 127)
    | none => ""
  | _ => ""

/-- A region header line given by its address range, its permission characters
and its text after the offset field (device, inode and path). -/
def Line.rawHeader (b e : Nat) (p0 p1 p2 p3 : Char) (tail : String) : Line :=
  Line.header b e p0 p1 p2 p3 (scanTail tail)

/-- A report in which the injector library, mapped after the application, lives
on a device whose major number has three hexadecimal digits. -/
def wideDeviceReport : List Line :=
  appLines ++
    [Line.rawHeader 0x7f0000 0x7f4000 'r' '-' 'x' 'p' " 103:02 456    /usr/lib/libsdc.so",
     Line.sizeKb 16, Line.rssKb 16]

/-- A report in which a writable region of a shared library lies between the
code and the data of the application. -/
def libBeforeDataReport : List Line :=
  [Line.header 0x1000 0x2000 'r' '-' 'x' 'p' "/bin/app", Line.sizeKb 4, Line.rssKb 4,
   Line.header 0x3000 0x5000 'r' 'w' '-' 'p' "/lib/libc.so.6", Line.sizeKb 8, Line.rssKb 8,
   Line.header 0x6000 0x7000 'r' 'w' '-' 'p' "/bin/app", Line.sizeKb 4, Line.rssKb 4]

/-- The run with `SDC_MEMTYPE=appdata` on `libBeforeDataReport` whose first draw
is `2048`. -/
def runAppDataDraw2048 : Outcome × Globals :=
  sdcInjectorStart injectAPPDATA 4096 Globals.initial (onePageMachine 0x3000 3)
    (envOf libBeforeDataReport 2048 0)

/-- The predicate of a category, as `readProcSmaps` applies it when it adds a
segment to the counter of the category (lines 136-151). -/
def categoryMatch (ty : InjectMemoryType) (cat : List MapSegment) (d : MapSegment) : Bool :=
  match ty with
  | injectALL => hasAccess d
  | injectDATA => writable d
  | injectCODE => executable d
  | injectAPPDATA => isAppData cat d
  | injectHEAP => writableNamed "[heap]" d
  | injectSTACK => writableNamed "[stack]" d

/-- C1 (the code departs from the claim).  On the catalog built from one
read-write region `[0x1000, 0x2000)` the data counter is `4096 > 0`, yet with a
first draw of `0` the walk of `sdcInjectorStart` is not entered and the address
is resolved to `0x2000`, the end address of the segment, which lies in no
segment of the catalog. -/
theorem sampler_draw_zero_resolves_to_end_address :
    runDrawZero.2.memoryMap = [⟨0x1000, 0x2000, 0x13, "/bin/app"⟩] ∧
    categoryTotal injectDATA runDrawZero.2 = 4096 ∧
    runDrawZero.1.address = some 0x2000 ∧
    ∀ s ∈ runDrawZero.2.memoryMap, ¬ (s.beginAddress ≤ 0x2000 ∧ 0x2000 < s.endAddress) := by
  decide

/-! ### C2: the counters of a catalog build -/

theorem sum64_nil (p : MapSegment → Bool) : sum64 p [] = 0 := by
  simp [sum64]

theorem sum64_append_singleton (p : MapSegment → Bool) (cat : List MapSegment) (s : MapSegment) :
    sum64 p (cat ++ [s]) = if p s then add64 (sum64 p cat) s.size else sum64 p cat := by
  unfold sum64 add64
  by_cases hp : p s = true
  · simp [List.filter_append, hp, Nat.mod_add_mod]
  · simp [List.filter_append, hp]

theorem sum64_congr (p q : MapSegment → Bool) (cat : List MapSegment)
    (h : ∀ d ∈ cat, p d = q d) : sum64 p cat = sum64 q cat := by
  unfold sum64
  rw [List.filter_congr h]

theorem and_ne_zero_of_and_ne_zero (x a b : Nat) (hab : b &&& a = a) (h : x &&& a ≠ 0) :
    x &&& b ≠ 0 := by
  intro h0
  apply h
  rw [← hab, ← Nat.and_assoc, h0, Nat.zero_and]

theorem firstAppName_append (cat : List MapSegment) (s : MapSegment) :
    firstAppName (cat ++ [s]) =
      match firstAppName cat with
      | some a => some a
      | none => if s.name ≠ "none" then some s.name else none := by
  unfold firstAppName
  rw [List.find?_append]
  cases hf : cat.find? (fun d => decide (d.name ≠ "none")) with
  | some d => simp
  | none =>
    by_cases hs : s.name = "none"
    · simp [List.find?, hs]
    · simp [List.find?, hs]

theorem firstAppName_none (cat : List MapSegment) (h : firstAppName cat = none) :
    ∀ d ∈ cat, d.name = "none" := by
  unfold firstAppName at h
  intro d hd
  cases hf : cat.find? (fun d => decide (d.name ≠ "none")) with
  | some d' => rw [hf] at h; simp at h
  | none =>
    have := List.find?_eq_none.mp hf d hd
    simpa using this

theorem appendSegment_memoryMap (g : Globals) (appName : String) (s : MapSegment) :
    (appendSegment g appName s).memoryMap = g.memoryMap ++ [s] := by
  unfold appendSegment count
  split_ifs <;> rfl

/-- Appending and counting one segment keeps the counters in agreement with the
catalog, given how `appName` relates to the first name of the extended catalog. -/
theorem appendSegment_agree (g : Globals) (appName : String) (s : MapSegment)
    (hg : CountersAgree g)
    (happ : s.name = appName ↔ firstAppName (g.memoryMap ++ [s]) = some s.name)
    (hold : ∀ d ∈ g.memoryMap, isAppData (g.memoryMap ++ [s]) d = isAppData g.memoryMap d) :
    CountersAgree (appendSegment g appName s) := by
  have hr : s.permissions &&& PERM_READ ≠ 0 →
      s.permissions &&& (PERM_READ ||| PERM_WRITE ||| PERM_EXEC) ≠ 0 :=
    and_ne_zero_of_and_ne_zero _ _ _ (by decide)
  have hw : s.permissions &&& PERM_WRITE ≠ 0 →
      s.permissions &&& (PERM_READ ||| PERM_WRITE ||| PERM_EXEC) ≠ 0 :=
    and_ne_zero_of_and_ne_zero _ _ _ (by decide)
  have hx : s.permissions &&& PERM_EXEC ≠ 0 →
      s.permissions &&& (PERM_READ ||| PERM_WRITE ||| PERM_EXEC) ≠ 0 :=
    and_ne_zero_of_and_ne_zero _ _ _ (by decide)
  have happdata : sum64 (isAppData (g.memoryMap ++ [s])) (g.memoryMap ++ [s]) =
      if s.name = appName ∧ s.permissions &&& PERM_WRITE ≠ 0
      then add64 (sum64 (isAppData g.memoryMap) g.memoryMap) s.size
      else sum64 (isAppData g.memoryMap) g.memoryMap := by
    rw [sum64_append_singleton, sum64_congr _ _ _ hold]
    have : (isAppData (g.memoryMap ++ [s]) s = true) ↔
        (s.name = appName ∧ s.permissions &&& PERM_WRITE ≠ 0) := by
      simp only [isAppData, writable, Bool.and_eq_true, decide_eq_true_eq]
      rw [← happ]
      exact And.comm
    by_cases hc : s.name = appName ∧ s.permissions &&& PERM_WRITE ≠ 0
    · rw [if_pos hc, if_pos (this.mpr hc)]
    · rw [if_neg hc, if_neg (fun h => hc (this.mp h))]
  unfold appendSegment count
  by_cases hacc : s.permissions &&& (PERM_READ ||| PERM_WRITE ||| PERM_EXEC) = 0
  · have nr : ¬ s.permissions &&& PERM_READ ≠ 0 := fun h => hr h hacc
    have nw : ¬ s.permissions &&& PERM_WRITE ≠ 0 := fun h => hw h hacc
    have nx : ¬ s.permissions &&& PERM_EXEC ≠ 0 := fun h => hx h hacc
    rw [if_pos hacc]
    constructor
    · simp [sum64_append_singleton, hasAccess, hacc, hg.total]
    · simp [sum64_append_singleton, readable, nr, hg.read]
    · simp [sum64_append_singleton, writable, nw, hg.write]
    · simp [sum64_append_singleton, executable, nx, hg.code]
    · show g.totalAppDataMemory = _
      rw [happdata, if_neg (fun h => nw h.2), hg.appdata]
    · simp [sum64_append_singleton, writableNamed, writable, nw, hg.heap]
    · simp [sum64_append_singleton, writableNamed, writable, nw, hg.stack]
  · rw [if_neg hacc]
    constructor
    · simp [sum64_append_singleton, hasAccess, hacc, hg.total, MapSegment.size]
    · simp only [sum64_append_singleton, readable, hg.read, MapSegment.size, decide_eq_true_eq]
    · simp only [sum64_append_singleton, writable, hg.write, MapSegment.size, decide_eq_true_eq]
    · simp only [sum64_append_singleton, executable, hg.code, MapSegment.size, decide_eq_true_eq]
    · show (if s.name = appName ∧ s.permissions &&& PERM_WRITE ≠ 0 then _ else _) = _
      rw [happdata, hg.appdata]
      rfl
    · simp only [sum64_append_singleton, writableNamed, writable, hg.heap, MapSegment.size,
        decide_eq_true_eq, Bool.and_eq_true]
      congr 1
      exact propext And.comm
    · simp only [sum64_append_singleton, writableNamed, writable, hg.stack, MapSegment.size,
        decide_eq_true_eq, Bool.and_eq_true]
      congr 1
      exact propext And.comm

theorem scanName_ne (h : Header) (loc : Locals) (hn : loc.name ≠ "") : scanName h loc ≠ "" := by
  unfold scanName
  split_ifs with h0
  · exact hn
  · exact h0

theorem linked_skip (loc : Locals) (g : Globals) (h : Header) (hl : Linked loc g) :
    Linked { loc with name := scanName h loc } g :=
  ⟨scanName_ne h loc hl.name_ne, hl.unset, hl.set⟩

theorem append_step (g : Globals) (appName0 name : String) (s : MapSegment) (loc2 : Locals)
    (hsn : s.name = name) (hne : name ≠ "")
    (hunset : appName0 = "" → firstAppName g.memoryMap = none)
    (hset0 : appName0 ≠ "" → firstAppName g.memoryMap = some appName0)
    (hg : CountersAgree g)
    (hln : loc2.name = name) (hla : loc2.appName = setAppName appName0 name) :
    Linked loc2 (appendSegment g (setAppName appName0 name) s) ∧
    CountersAgree (appendSegment g (setAppName appName0 name) s) := by
  have hne2 : loc2.name ≠ "" := by rw [hln]; exact hne
  have hfa := firstAppName_append g.memoryMap s
  by_cases ha : appName0 = ""
  · have hnone := hunset ha
    have hall := firstAppName_none _ hnone
    rw [hnone] at hfa
    by_cases hnm : name = "none"
    · have hset : setAppName appName0 name = "" := by
        simp [setAppName, ha, hnm]
      have hfa' : firstAppName (g.memoryMap ++ [s]) = none := by
        rw [hfa]; simp [hsn, hnm]
      rw [hset] at hla ⊢
      refine ⟨⟨hne2, ?_, ?_⟩, appendSegment_agree g _ s hg ?_ ?_⟩
      · intro _; rw [appendSegment_memoryMap]; exact hfa'
      · intro hc; exact absurd hla hc
      · rw [hfa']; simp [hsn, hne]
      · intro d hd
        simp [isAppData, hfa', hnone]
    · have hset : setAppName appName0 name = name := by
        simp [setAppName, ha, hnm]
      have hfa' : firstAppName (g.memoryMap ++ [s]) = some name := by
        rw [hfa]; simp [hsn, hnm]
      rw [hset] at hla ⊢
      refine ⟨⟨hne2, ?_, ?_⟩, appendSegment_agree g _ s hg ?_ ?_⟩
      · intro hc; rw [hla] at hc; exact absurd hc hne
      · intro _; rw [appendSegment_memoryMap, hla]; exact hfa'
      · rw [hfa']; simp [hsn]
      · intro d hd
        have hd' := hall d hd
        simp [isAppData, hfa', hnone, hd']
        intro _ hc
        exact hnm hc
  · have hsome := hset0 ha
    rw [hsome] at hfa
    have hset : setAppName appName0 name = appName0 := by
      simp [setAppName, ha]
    rw [hset] at hla ⊢
    refine ⟨⟨hne2, ?_, ?_⟩, appendSegment_agree g _ s hg ?_ ?_⟩
    · intro hc; rw [hla] at hc; exact absurd hc ha
    · intro _; rw [appendSegment_memoryMap, hla]; exact hfa
    · rw [hfa]
      constructor
      · intro e; rw [e]
      · intro e; exact (Option.some.inj e).symm
    · intro d _
      simp [isAppData, hfa, hsome]

theorem linked_append (loc : Locals) (g : Globals) (h : Header) (sizeLine rssLine : Line)
    (hl : Linked loc g) (hg : CountersAgree g) :
    Linked (nextLocals loc h sizeLine rssLine)
      (appendSegment g (nextLocals loc h sizeLine rssLine).appName
        (newSegment (nextLocals loc h sizeLine rssLine) h)) ∧
    CountersAgree (appendSegment g (nextLocals loc h sizeLine rssLine).appName
        (newSegment (nextLocals loc h sizeLine rssLine) h)) :=
  append_step g loc.appName (scanName h loc) _ _ rfl (scanName_ne h loc hl.name_ne)
    hl.unset hl.set hg rfl rfl

/-- The loop of `readProcSmaps` keeps the counters in agreement with the catalog. -/
theorem readLoop_agree (lines : List Line) (loc : Locals) (g : Globals) :
    Linked loc g → CountersAgree g → CountersAgree (readLoop lines loc g) := by
  induction lines, loc, g using readLoop.induct with
  | case1 loc g => intro _ hg; simpa [readLoop] using hg
  | case2 line rest loc g hh ih =>
    intro hl hg
    rw [readLoop]; simp only [hh]
    exact ih hl hg
  | case3 line rest loc g h hh name hlib ih =>
    intro hl hg
    rw [readLoop]; simp only [hh]
    rw [if_pos hlib]
    exact ih (linked_skip loc g h hl) hg
  | case4 line rest loc g h hh name hlib hperm ih =>
    intro hl hg
    rw [readLoop]; simp only [hh]
    rw [if_neg hlib, if_pos hperm]
    exact ih (linked_skip loc g h hl) hg
  | case5 line loc g h hh name hlib hperm sizeLine rssLine rest' loc' ih =>
    intro hl hg
    rw [readLoop]; simp only [hh]
    rw [if_neg hlib, if_neg hperm]
    obtain ⟨h1, h2⟩ := linked_append loc g h sizeLine rssLine hl hg
    exact ih h1 h2
  | case6 line rest loc g h hh name hlib hperm hrest =>
    intro hl hg
    rw [readLoop]; simp only [hh]
    rw [if_neg hlib, if_neg hperm]
    cases rest with
    | nil => exact hg
    | cons a rest2 =>
      cases rest2 with
      | nil => exact hg
      | cons b rest3 => exact absurd rfl (hrest a b rest3)

theorem countersAgree_initial : CountersAgree Globals.initial := by
  constructor <;> rfl

/-- A build from the initial state ends with counters that agree with the
catalog. -/
theorem countersAgree_build (report : List Line) (absSize0 rssSize0 : Nat) :
    CountersAgree (readProcSmaps Globals.initial (some report) absSize0 rssSize0).2 := by
  unfold readProcSmaps
  have hl : ∀ a r, Linked ⟨"none", "", a, r⟩ Globals.initial :=
    fun _ _ => ⟨(by decide : ("none" : String) ≠ ""), fun _ => rfl, fun h => absurd rfl h⟩
  exact readLoop_agree report _ _ (hl _ _) countersAgree_initial

/-- When the sizes do not add up to `2 ^ 64` or more, the sum in `unsigned long`
arithmetic is the exact sum. -/
theorem sum64_exact (p : MapSegment → Bool) (cat : List MapSegment)
    (h : ((cat.filter p).map MapSegment.size).sum < 2 ^ 64) :
    sum64 p cat = ((cat.filter p).map MapSegment.size).sum :=
  Nat.mod_eq_of_lt h

/-- C2.  For every report (and whatever the indeterminate initial values of the
size locals), a build by `readProcSmaps` from the initial state ends with every
counter equal to the sum, in `unsigned long` arithmetic, of
`endAddress - beginAddress` over the built descriptors that meet its predicate:
total = some of read/write/execute; read = readable; write = writable; code =
executable; appdata = writable and named as the first descriptor whose name is
not `"none"`; heap = writable and named `"[heap]"`; stack = writable and named
`"[stack]"`. -/
theorem readProcSmaps_counters (report : List Line) (absSize0 rssSize0 : Nat) :
    (readProcSmaps Globals.initial (some report) absSize0 rssSize0).2.totalMemory
      = sum64 hasAccess
          (readProcSmaps Globals.initial (some report) absSize0 rssSize0).2.memoryMap ∧
    (readProcSmaps Globals.initial (some report) absSize0 rssSize0).2.totalReadMemory
      = sum64 readable
          (readProcSmaps Globals.initial (some report) absSize0 rssSize0).2.memoryMap ∧
    (readProcSmaps Globals.initial (some report) absSize0 rssSize0).2.totalWriteMemory
      = sum64 writable
          (readProcSmaps Globals.initial (some report) absSize0 rssSize0).2.memoryMap ∧
    (readProcSmaps Globals.initial (some report) absSize0 rssSize0).2.totalCodeMemory
      = sum64 executable
          (readProcSmaps Globals.initial (some report) absSize0 rssSize0).2.memoryMap ∧
    (readProcSmaps Globals.initial (some report) absSize0 rssSize0).2.totalAppDataMemory
      = sum64 (isAppData
            (readProcSmaps Globals.initial (some report) absSize0 rssSize0).2.memoryMap)
          (readProcSmaps Globals.initial (some report) absSize0 rssSize0).2.memoryMap ∧
    (readProcSmaps Globals.initial (some report) absSize0 rssSize0).2.totalHeapMemory
      = sum64 (writableNamed "[heap]")
          (readProcSmaps Globals.initial (some report) absSize0 rssSize0).2.memoryMap ∧
    (readProcSmaps Globals.initial (some report) absSize0 rssSize0).2.totalStackMemory
      = sum64 (writableNamed "[stack]")
          (readProcSmaps Globals.initial (some report) absSize0 rssSize0).2.memoryMap :=
  have h := countersAgree_build report absSize0 rssSize0
  ⟨h.total, h.read, h.write, h.code, h.appdata, h.heap, h.stack⟩

/-! ### C3: rebuilding the catalog -/

/-- C3 (the code departs from the claim).  Building `dataReport` a second time
on top of the first build yields the same catalog, total and write counter as a
build from the initial state, but the read counter, which `readProcSmaps` does
not zero, is `8192` instead of `4096`. -/
theorem rebuild_keeps_prior_read_counter :
    (readProcSmaps Globals.initial (some dataReport) 0 0).2.totalReadMemory = 4096 ∧
    (readProcSmaps (readProcSmaps Globals.initial (some dataReport) 0 0).2
      (some dataReport) 0 0).2.totalReadMemory = 8192 ∧
    (readProcSmaps (readProcSmaps Globals.initial (some dataReport) 0 0).2
      (some dataReport) 0 0).2.memoryMap
      = (readProcSmaps Globals.initial (some dataReport) 0 0).2.memoryMap ∧
    (readProcSmaps (readProcSmaps Globals.initial (some dataReport) 0 0).2
      (some dataReport) 0 0).2.totalMemory = 4096 := by
  decide

/-! ### C4: resident-size refinement -/

/-- Whenever the counter of the chosen category is `0`, the injection ends in
the division by zero of line 141. -/
theorem inject_of_empty_category (ty : InjectMemoryType) (systemPageSize : Nat) (g : Globals)
    (m : Machine) (random1 random2 : Nat) (ok1 ok2 : Bool) (h : categoryTotal ty g = 0) :
    inject ty systemPageSize g m random1 random2 ok1 ok2 = Outcome.divideByZero := by
  unfold inject
  simp only [h, if_true]

/-- C5 (the code departs from the claim).  With `SDC_MEMTYPE=heap` and a report
without a heap region the heap counter is `0`; `sdcInjectorStart` then evaluates
`random() % 0` and ends in a fault of the host process instead of reporting a
failure and returning. -/
theorem empty_category_divides_by_zero :
    categoryTotal injectHEAP runNoHeap.2 = 0 ∧
    runNoHeap.1.crashed = true ∧
    runNoHeap.1.reportedFailure = false := by
  decide

/-! ### C6: the mutation is an involution -/

/-- C6.  Applying the mutation `w := w XOR (1 << b)` of `sdcInjectorStart` twice
with the same bit number restores the word. -/
theorem flip_twice_restores (w b : Nat) :
    flip (flip w (injectValOf b)) (injectValOf b) = w := by
  unfold flip
  rw [Nat.xor_assoc, Nat.xor_self, Nat.xor_zero]

/-! ### C7: the engines own module -/

/-- The loop of `readProcSmaps` never appends a descriptor whose name contains
`libsdc.so`. -/
theorem readLoop_no_own_module (lines : List Line) (loc : Locals) (g : Globals) :
    (∀ d ∈ g.memoryMap, strstr d.name "libsdc.so" = false) →
    ∀ d ∈ (readLoop lines loc g).memoryMap, strstr d.name "libsdc.so" = false := by
  induction lines, loc, g using readLoop.induct with
  | case1 loc g => intro hg; simpa [readLoop] using hg
  | case2 line rest loc g hh ih =>
    intro hg
    rw [readLoop]; simp only [hh]
    exact ih hg
  | case3 line rest loc g h hh name hlib ih =>
    intro hg
    rw [readLoop]; simp only [hh]
    rw [if_pos hlib]
    exact ih hg
  | case4 line rest loc g h hh name hlib hperm ih =>
    intro hg
    rw [readLoop]; simp only [hh]
    rw [if_neg hlib, if_pos hperm]
    exact ih hg
  | case5 line loc g h hh name hlib hperm sizeLine rssLine rest' loc' ih =>
    intro hg
    rw [readLoop]; simp only [hh]
    rw [if_neg hlib, if_neg hperm]
    apply ih
    intro d hd
    rw [appendSegment_memoryMap, List.mem_append, List.mem_singleton] at hd
    rcases hd with hd | hd
    · exact hg d hd
    · rw [hd]
      exact Bool.eq_false_iff.mpr hlib
  | case6 line rest loc g h hh name hlib hperm hrest =>
    intro hg
    rw [readLoop]; simp only [hh]
    rw [if_neg hlib, if_neg hperm]
    cases rest with
    | nil => exact hg
    | cons a rest2 =>
      cases rest2 with
      | nil => exact hg
      | cons b rest3 => exact absurd rfl (hrest a b rest3)

theorem scanName_of_own_module (h : Header) (loc : Locals)
    (hlib : strstr h.name "libsdc.so" = true) : scanName h loc = h.name := by
  unfold scanName
  split_ifs with h0
  · rw [h0] at hlib
    exact absurd hlib (by decide)
  · rfl

/-- A header line whose name contains `libsdc.so` is skipped: only the buffer
`name` changes. -/
theorem readLoop_own_module_header (h : Header) (sz rs : Option Nat) (rest : List Line)
    (loc : Locals) (g : Globals) (hlib : strstr h.name "libsdc.so" = true) :
    readLoop (⟨some h, sz, rs⟩ :: rest) loc g = readLoop rest { loc with name := h.name } g := by
  rw [readLoop]
  simp only [scanName_of_own_module h loc hlib, hlib, if_true]

/-- The result of the loop does not depend on the addresses and permissions of a
line whose name contains `libsdc.so`, wherever the line stands in the report. -/
theorem readLoop_own_module_indep (h h' : Header) (sz rs : Option Nat)
    (hname : h'.name = h.name) (hlib : strstr h.name "libsdc.so" = true) :
    ∀ (n : Nat) (pre : List Line), pre.length ≤ n → ∀ (post : List Line) (loc : Locals)
      (g : Globals),
      readLoop (pre ++ ⟨some h, sz, rs⟩ :: post) loc g
        = readLoop (pre ++ ⟨some h', sz, rs⟩ :: post) loc g := by
  intro n
  induction n with
  | zero =>
    intro pre hpre post loc g
    have : pre = [] := List.length_eq_zero.mp (Nat.le_zero.mp hpre)
    subst this
    simp only [List.nil_append]
    rw [readLoop_own_module_header h sz rs post loc g hlib,
      readLoop_own_module_header h' sz rs post loc g (by rw [hname]; exact hlib), hname]
  | succ n ih =>
    intro pre hpre post loc g
    cases pre with
    | nil =>
      simp only [List.nil_append]
      rw [readLoop_own_module_header h sz rs post loc g hlib,
        readLoop_own_module_header h' sz rs post loc g (by rw [hname]; exact hlib), hname]
    | cons l pre' =>
      have hlen : pre'.length ≤ n := by simpa using hpre
      simp only [List.cons_append]
      rw [readLoop, readLoop]
      cases hh : l.hdr with
      | none => exact ih pre' hlen post loc g
      | some h0 =>
        simp only
        by_cases hl0 : strstr (scanName h0 loc) "libsdc.so" = true
        · rw [if_pos hl0, if_pos hl0]
          exact ih pre' hlen post _ g
        · rw [if_neg hl0, if_neg hl0]
          by_cases hp : h0.perms.p0 = '-' ∧ h0.perms.p1 = '-' ∧ h0.perms.p2 = '-'
          · rw [if_pos hp, if_pos hp]
            exact ih pre' hlen post _ g
          · rw [if_neg hp, if_neg hp]
            cases pre' with
            | nil =>
              cases post with
              | nil => rfl
              | cons r rest' => rfl
            | cons s pre2 =>
              cases pre2 with
              | nil => rfl
              | cons r pre3 =>
                simp only [List.cons_append]
                exact ih pre3 (by simp at hlen; omega) post _ _

/-- In terms of the names that the header scan stores: no descriptor of a built
catalog has a name that contains `libsdc.so`, and the whole result (catalog and
all seven counters) stays the same when the addresses and permissions of a line
with such a stored name are replaced by any others. -/
theorem own_module_never_catalogued (g : Globals) (report : List Line)
    (absSize0 rssSize0 : Nat) :
    (∀ d ∈ (readProcSmaps g (some report) absSize0 rssSize0).2.memoryMap,
      strstr d.name "libsdc.so" = false) ∧
    (∀ (pre post : List Line) (h h' : Header) (sz rs : Option Nat),
      report = pre ++ ⟨some h, sz, rs⟩ :: post → strstr h.name "libsdc.so" = true →
      h'.name = h.name →
      readProcSmaps g (some (pre ++ ⟨some h', sz, rs⟩ :: post)) absSize0 rssSize0
        = readProcSmaps g (some report) absSize0 rssSize0) := by
  constructor
  · unfold readProcSmaps
    exact readLoop_no_own_module report _ _ (fun d hd => absurd hd (List.not_mem_nil d))
  · intro pre post h h' sz rs hrep hlib hname
    subst hrep
    unfold readProcSmaps
    simp only
    rw [readLoop_own_module_indep h h' sz rs hname hlib pre.length pre (le_refl _)]

/-- An instance on `ownModuleReport`: the library
region and the anonymous region after it are both left out; the catalog holds
the application's region only, and moving the library region changes nothing. -/
theorem own_module_never_catalogued_witness :
    (readProcSmaps Globals.initial (some ownModuleReport) 0 0).2.memoryMap
      = [⟨0x1000, 0x2000, 0x13, "/bin/app"⟩] ∧
    (readProcSmaps Globals.initial (some ownModuleReport) 0 0).2.totalMemory = 4096 ∧
    (∀ d ∈ (readProcSmaps Globals.initial (some ownModuleReport) 0 0).2.memoryMap,
      strstr d.name "libsdc.so" = false) ∧
    readProcSmaps Globals.initial
        (some (appLines ++ Line.header 0 0x100000 'r' 'w' 'x' 's' "/usr/lib/libsdc.so" ::
          afterOwnModule)) 0 0
      = readProcSmaps Globals.initial (some ownModuleReport) 0 0 :=
  ⟨by decide, by decide,
    (own_module_never_catalogued Globals.initial ownModuleReport 0 0).1,
    (own_module_never_catalogued Globals.initial ownModuleReport 0 0).2 appLines afterOwnModule
      ⟨0x7f0000, 0x7f4000, ⟨'r', '-', 'x', 'p'⟩, "/usr/lib/libsdc.so"⟩
      ⟨0, 0x100000, ⟨'r', 'w', 'x', 's'⟩, "/usr/lib/libsdc.so"⟩ none none rfl (by decide) rfl⟩

/-- C7 (the code departs from the claim).  The header line of the injector
library `7f0000-7f4000 r-xp 00000000 103:02 456 /usr/lib/libsdc.so` has a device
field with a three-digit major number: the scan stops at `%c%c:` after nine
items and does not write `name`, so the test for `libsdc.so` looks at the name
left by the preceding region.  The library region is appended to the catalog
(under the name `/bin/app`) and its 16384 bytes are added to the total and code
counters.  The same line with the device `08:01` is scanned to the name
`/usr/lib/libsdc.so`. -/
theorem own_module_on_wide_device_is_catalogued :
    scanTail " 08:01 123    /usr/lib/libsdc.so" = "/usr/lib/libsdc.so" ∧
    scanTail " 103:02 456    /usr/lib/libsdc.so" = "" ∧
    (readProcSmaps Globals.initial (some wideDeviceReport) 0 0).2.memoryMap
      = [⟨0x1000, 0x2000, 0x13, "/bin/app"⟩, ⟨0x7f0000, 0x7f4000, 0x15, "/bin/app"⟩] ∧
    (readProcSmaps Globals.initial (some wideDeviceReport) 0 0).2.totalMemory = 20480 ∧
    (readProcSmaps Globals.initial (some wideDeviceReport) 0 0).2.totalCodeMemory = 16384 := by
  decide

/-! ### C8: the protected writer -/

/-- Masking a 64-bit value with `2 ^ 64 - 2 ^ k` rounds it down to a multiple of
`2 ^ k`. -/
theorem and_high_mask (a k : Nat) (ha : a < 2 ^ 64) (hk : k ≤ 64) :
    a &&& (2 ^ 64 - 2 ^ k) = a - a % 2 ^ k := by
  have h1 : 2 ^ 64 - 2 ^ k = 2 ^ k * (2 ^ (64 - k) - 1) := by
    have h2 : (2:Nat) ^ 64 = 2 ^ k * 2 ^ (64 - k) := by
      rw [← Nat.pow_add]; congr 1; omega
    rw [Nat.mul_sub, Nat.mul_one, ← h2]
  have h3 : a - a % 2 ^ k = 2 ^ k * (a / 2 ^ k) := by
    have := Nat.mod_add_div a (2 ^ k)
    omega
  rw [h1, h3]
  apply Nat.eq_of_testBit_eq
  intro j
  rw [Nat.testBit_and, Nat.testBit_mul_pow_two, Nat.testBit_mul_pow_two,
    Nat.testBit_two_pow_sub_one, ← Nat.shiftRight_eq_div_pow, Nat.testBit_shiftRight]
  by_cases hj : k ≤ j
  · have e : k + (j - k) = j := by omega
    rw [e]
    by_cases hj2 : j < 64
    · have : j - k < 64 - k := by omega
      simp [hj, this]
    · have hlt : a < 2 ^ j := lt_of_lt_of_le ha (Nat.pow_le_pow_right (by decide) (by omega))
      rw [Nat.testBit_lt_two_pow hlt]
      simp
  · simp [hj]

theorem two_pow_pos_nat (k : Nat) : 0 < (2:Nat) ^ k := Nat.pos_pow_of_pos k (by decide)

/-- For a page size `2 ^ k`, `pagePtr` is the address rounded down to a
multiple of the page size. -/
theorem pagePtrOf_eq (injectPtr k : Nat) (hptr : injectPtr < 2 ^ 64) (hk : k < 64) :
    pagePtrOf (2 ^ k) injectPtr = injectPtr - injectPtr % 2 ^ k := by
  have hlt : (2:Nat) ^ k < 2 ^ 64 := Nat.pow_lt_pow_right (by decide) hk
  have hpos : 0 < (2:Nat) ^ k := two_pow_pos_nat k
  have e : not64 (sub64 (2 ^ k) 1) = 2 ^ 64 - 2 ^ k := by
    unfold not64 sub64
    generalize (2:Nat) ^ k = x at hlt hpos
    omega
  unfold pagePtrOf
  rw [e]
  exact and_high_mask injectPtr k hptr (by omega)

theorem pagePerms_or_write (map : MapSegment) :
    (pagePermsOf map ||| PROT_WRITE) &&& PROT_WRITE ≠ 0 := by
  unfold pagePermsOf
  split_ifs <;> decide

theorem mprotect_prot_self (m : Machine) (addr len prot : Nat) (hlen : 0 < len) :
    (mprotect true m addr len prot).prot addr = prot := by
  have h : addr ≤ addr ∧ addr < addr + len := ⟨le_refl _, by omega⟩
  simp only [mprotect, if_true]
  exact if_pos h

theorem mprotect_prot_other (ok : Bool) (m : Machine) (addr len prot q : Nat)
    (hq : q < addr ∨ addr + len ≤ q) : (mprotect ok m addr len prot).prot q = m.prot q := by
  have h : ¬ (addr ≤ q ∧ q < addr + len) := by omega
  cases ok
  · rfl
  · simp only [mprotect, if_true]
    exact if_neg h

/-- C8.  For a segment without write permission, a resolved address and a page
size `2 ^ k`: the first thing the writer does, whether or not the call succeeds,
is `mprotect` on the page that starts at the address rounded down to a multiple
of the page size, of one page length, with the segment's read and execute flags
plus write; and when that call succeeds the writer issues, in this order, that
call, the store of the flipped word, and `mprotect` on the same page with
exactly the segment's read and execute flags, which is the protection of the
page afterwards when the second call succeeds; the protection of every other
page is left as it was. -/
theorem writer_elevates_and_restores_page (m : Machine) (map : MapSegment)
    (injectPtr randomBit k : Nat) (ok1 ok2 : Bool)
    (hro : map.permissions &&& PERM_WRITE = 0) (hptr : injectPtr < 2 ^ 64) (hk : k < 64) :
    (∃ rest, (protectedWrite m (2 ^ k) ok1 ok2 map injectPtr randomBit).events
        = Event.mprotect (injectPtr - injectPtr % 2 ^ k) (2 ^ k)
            ((if readable map then PROT_READ else 0) |||
             (if executable map then PROT_EXEC else 0) ||| PROT_WRITE) :: rest) ∧
    ∃ m', protectedWrite m (2 ^ k) true ok2 map injectPtr randomBit
        = Outcome.done m' map injectPtr randomBit
          [Event.mprotect (injectPtr - injectPtr % 2 ^ k) (2 ^ k)
             ((if readable map then PROT_READ else 0) |||
              (if executable map then PROT_EXEC else 0) ||| PROT_WRITE),
           Event.store injectPtr (flip (m.mem injectPtr) (injectValOf randomBit)),
           Event.mprotect (injectPtr - injectPtr % 2 ^ k) (2 ^ k)
             ((if readable map then PROT_READ else 0) |||
              (if executable map then PROT_EXEC else 0))] ∧
      (ok2 = true → m'.prot (injectPtr - injectPtr % 2 ^ k)
        = ((if readable map then PROT_READ else 0) |||
           (if executable map then PROT_EXEC else 0))) ∧
      (∀ q, q < injectPtr - injectPtr % 2 ^ k ∨ injectPtr - injectPtr % 2 ^ k + 2 ^ k ≤ q →
        m'.prot q = m.prot q) := by
  have hpage := pagePtrOf_eq injectPtr k hptr hk
  have hpos := two_pow_pos_nat k
  have hperm : pagePermsOf map = ((if readable map then PROT_READ else 0) |||
      (if executable map then PROT_EXEC else 0)) := by
    simp [pagePermsOf, readable, executable]
  have hstore : canStore (mprotect true m (pagePtrOf (2 ^ k) injectPtr) (2 ^ k)
      (pagePermsOf map ||| PROT_WRITE)) (2 ^ k) injectPtr = true := by
    have := pagePerms_or_write map
    unfold canStore pageOf
    rw [hpage, mprotect_prot_self _ _ _ _ hpos]
    exact decide_eq_true this
  constructor
  · unfold protectedWrite
    simp only [hro, decide_True, if_true]
    rw [hpage, hperm]
    generalize ((if readable map then PROT_READ else 0) |||
      (if executable map then PROT_EXEC else 0)) = rx
    by_cases hc : canStore (mprotect ok1 m (injectPtr - injectPtr % 2 ^ k) (2 ^ k)
        (rx ||| PROT_WRITE)) (2 ^ k) injectPtr = true
    · rw [if_pos hc]; exact ⟨_, rfl⟩
    · rw [if_neg hc]; exact ⟨_, rfl⟩
  · unfold protectedWrite
    simp only [hro, decide_True, if_true, hstore]
    rw [hpage, hperm]
    refine ⟨_, rfl, ?_, ?_⟩
    · intro h2
      subst h2
      exact mprotect_prot_self _ _ _ _ hpos
    · intro q hq
      rw [mprotect_prot_other ok2 _ _ _ _ q hq]
      exact mprotect_prot_other true m _ _ _ q hq

/-- C8, witness: the read-execute segment `[0x1000, 0x2000)`, page size 4096 and
address `0x1800` give the page at `0x1000`, elevated to read+write+execute (7)
and restored to read+execute (5). -/
theorem writer_elevates_and_restores_page_witness :
    codeSegment.permissions &&& PERM_WRITE = 0 ∧
    (∃ rest, (protectedWrite (onePageMachine 0x1000 5) (2 ^ 12) true true codeSegment
        0x1800 0).events = Event.mprotect 0x1000 4096 7 :: rest) ∧
    ∃ m', protectedWrite (onePageMachine 0x1000 5) (2 ^ 12) true true codeSegment 0x1800 0
        = Outcome.done m' codeSegment 0x1800 0
          [Event.mprotect 0x1000 4096 7, Event.store 0x1800 1, Event.mprotect 0x1000 4096 5] ∧
      (true = true → m'.prot 0x1000 = 5) ∧
      (∀ q, q < 0x1000 ∨ 0x1000 + 2 ^ 12 ≤ q → m'.prot q = (onePageMachine 0x1000 5).prot q) :=
  ⟨by decide, writer_elevates_and_restores_page (onePageMachine 0x1000 5) codeSegment 0x1800 0 12
    true true (by decide) (by decide) (by decide)⟩

/-! ### C9: the walk of the sampler -/

/-- For Data the walk tests the write permission, as the counter does. -/
theorem walkMatch_data (d : MapSegment) : walkMatch injectDATA d = writable d := by
  simp [walkMatch, writable]

/-- For Code the walk tests the execute permission, as the counter does. -/
theorem walkMatch_code (d : MapSegment) : walkMatch injectCODE d = executable d := by
  simp [walkMatch, executable]

theorem walkMatch_eq_categoryMatch_code (cat : List MapSegment) (d : MapSegment) :
    walkMatch injectCODE d = categoryMatch injectCODE cat d := walkMatch_code d

/-- C10 (the code departs from the claim).  For the read-execute segment
`[0x1000, 0x2000)` and a resolved address `0x1800`, when the `mprotect` call
that should add write permission fails, `sdcInjectorStart` has issued that call,
does not inspect its result, and goes on to the store at line 216, which faults
on the page that is still read-only: the run ends in a fault of the host
process and no failure is reported. -/
theorem failed_elevation_still_stores :
    runElevationFails.1.address = some 0x1800 ∧
    runElevationFails.1.events = [Event.mprotect 0x1000 4096 7] ∧
    runElevationFails.1.crashed = true ∧
    runElevationFails.1.reportedFailure = false := by
  decide

/-! ### C11: the report cannot be opened -/

/-- When the report cannot be opened `readProcSmaps` returns `-1` and leaves the
globals as they were. -/
theorem readProcSmaps_unavailable (g : Globals) (absSize0 rssSize0 : Nat) :
    readProcSmaps g none absSize0 rssSize0 = (-1, g) := rfl

/-- C11 (the code departs from the claim).  When the report cannot be opened
`readProcSmaps` returns `-1`, but `sdcInjectorStart` does not look at that value
and goes on to the sampling.  In a fresh process the data counter is `0` and the
run ends in the division by zero of line 141, a fault of the host process, not a
return; on globals left by an earlier read the run resolves the address `0x1800`
from the old catalog and changes the word stored there. -/
theorem maps_unavailable_still_samples :
    (readProcSmaps Globals.initial none 0 0).1 = -1 ∧
    runMapsUnavailable.1.crashed = true ∧
    runMapsUnavailable.1.reportedFailure = false ∧
    runMapsUnavailableStale.1.address = some 0x1800 ∧
    runMapsUnavailableStale.1.memory (onePageMachine 0x1000 3) 0x1800
      ≠ (onePageMachine 0x1000 3).mem 0x1800 := by
  decide

/-! ### C12: the delay -/

/-- The test of line 313, `ival >= 0 || ival <= 9999999`, holds for every integer:
whatever value `SDC_DELAY` parses to is stored. -/
theorem setDelay_stores (s : Statics) (env : Environ) (ival : Int)
    (h : env.SDC_DELAY = some ival) :
    (setDelay s env).waitSecondsUntilInject = toInt32 ival := by
  unfold setDelay
  rw [h]
  have : ival ≥ 0 ∨ ival ≤ 9999999 := by omega
  simp only [this, if_true]

/-- C12 (the code departs from the claim).  With `SDC_DELAY=-5`
`sdcTesterInitialize` sets the delay to `-5`, and with `SDC_DELAY=10000000` to
`10000000`; the default `3` is kept only when the variable is unset. -/
theorem out_of_range_delay_is_stored :
    (sdcTesterInitialize Statics.initial (environOf (some (-5)) none) 4096).1.waitSecondsUntilInject
      = -5 ∧
    (sdcTesterInitialize Statics.initial (environOf (some 10000000) none)
      4096).1.waitSecondsUntilInject = 10000000 ∧
    (sdcTesterInitialize Statics.initial (environOf none none) 4096).1.waitSecondsUntilInject
      = 3 := by
  decide

/-! ### C13: the memory category -/

/-- C13 (the code departs from the claim).  The value `bogus` of `SDC_MEMTYPE`
is none of the six accepted names; `sdcTesterInitialize` then leaves the category
at its static initialiser `injectALL`, whereas an unset variable gives
`injectDATA`. -/
theorem bad_memtype_leaves_all :
    strcasecmp "bogus" "all" = false ∧ strcasecmp "bogus" "data" = false ∧
    strcasecmp "bogus" "code" = false ∧ strcasecmp "bogus" "appdata" = false ∧
    strcasecmp "bogus" "heap" = false ∧ strcasecmp "bogus" "stack" = false ∧
    (sdcTesterInitialize Statics.initial (environOf none (some "bogus")) 4096).1.injectMemoryType
      = injectALL ∧
    (sdcTesterInitialize Statics.initial (environOf none none) 4096).1.injectMemoryType
      = injectDATA := by
  decide

/-! ### C14: the segments counted by the walk -/

/-- For the categories Data and Code the walk counts exactly the segments of the
counter, so the sum over the whole catalog is the counter. -/
theorem data_code_walk_sum (g : Globals) (hg : CountersAgree g) :
    categoryTotal injectDATA g = matchSum injectDATA g.memoryMap % 2 ^ 64 ∧
    categoryTotal injectCODE g = matchSum injectCODE g.memoryMap % 2 ^ 64 := by
  constructor
  · show g.totalWriteMemory = _
    rw [hg.write]
    unfold sum64 matchSum
    rw [List.filter_congr (fun d _ => walkMatch_data d)]
  · show g.totalCodeMemory = _
    rw [hg.code]
    unfold sum64 matchSum
    rw [List.filter_congr (fun d _ => walkMatch_code d)]

/-- On a catalog with a writable region of the application (4096 bytes) and a
writable region of a shared library (8192 bytes), the AppData counter is `4096`
but the test of the walk for AppData admits both regions, `12288` bytes. -/
theorem appdata_walk_counts_library :
    appAndLibGlobals.memoryMap
      = [⟨0x1000, 0x2000, 0x13, "/bin/app"⟩, ⟨0x7f0000, 0x7f2000, 0x13, "/lib/libc.so.6"⟩] ∧
    categoryTotal injectAPPDATA appAndLibGlobals = 4096 ∧
    matchSum injectAPPDATA appAndLibGlobals.memoryMap = 12288 ∧
    isAppData appAndLibGlobals.memoryMap ⟨0x7f0000, 0x7f2000, 0x13, "/lib/libc.so.6"⟩ = false ∧
    walkMatch injectAPPDATA ⟨0x7f0000, 0x7f2000, 0x13, "/lib/libc.so.6"⟩ = true := by
  decide

/-- C14 (the code departs from the claim).  In `libBeforeDataReport` a writable
region of `/lib/libc.so.6` precedes the writable region of the application.
`readProcSmaps` adds only the application's region to the AppData counter
(4096 bytes), but with `SDC_MEMTYPE=appdata` and a first draw of `2048` the walk
of `sdcInjectorStart` counts the library region, stops in it, resolves the
address `0x3800` inside it and flips a bit of the word stored there. -/
theorem appdata_draw_resolves_into_library :
    runAppDataDraw2048.2.memoryMap
      = [⟨0x1000, 0x2000, 0x15, "/bin/app"⟩, ⟨0x3000, 0x5000, 0x13, "/lib/libc.so.6"⟩,
         ⟨0x6000, 0x7000, 0x13, "/bin/app"⟩] ∧
    categoryTotal injectAPPDATA runAppDataDraw2048.2 = 4096 ∧
    isAppData runAppDataDraw2048.2.memoryMap ⟨0x3000, 0x5000, 0x13, "/lib/libc.so.6"⟩ = false ∧
    runAppDataDraw2048.1.segment = some ⟨0x3000, 0x5000, 0x13, "/lib/libc.so.6"⟩ ∧
    runAppDataDraw2048.1.address = some 0x3800 ∧
    runAppDataDraw2048.1.memory (onePageMachine 0x3000 3) 0x3800
      ≠ (onePageMachine 0x3000 3).mem 0x3800 := by
  decide

/-! ### C15: regions without a name -/

/-- C15 (the code departs from the claim).  In `anonAfterAppReport` the header
of the region `[0x5000, 0x6000)` carries no name, yet its descriptor is named
`/bin/app`, the name left in the buffer by the preceding region, not `none`. -/
theorem unnamed_region_keeps_previous_name :
    (readProcSmaps Globals.initial (some anonAfterAppReport) 0 0).2.memoryMap
      = [⟨0x1000, 0x2000, 0x15, "/bin/app"⟩, ⟨0x5000, 0x6000, 0x13, "/bin/app"⟩] ∧
    ¬ ∀ d ∈ (readProcSmaps Globals.initial (some anonAfterAppReport) 0 0).2.memoryMap,
        d.beginAddress = 0x5000 → d.name = "none" := by
  decide

/-! ### C16: executable regions -/

/-- C17 (the code departs from the claim).  A heap reported with
`Size: 8388608 kB` and `Rss: 4194304 kB` is appended with `endAddress =
beginAddress`, that is with size `0`, because `rssSize * 1024` is computed in
32 bits and wraps to `0`; the claim gives the size `4194304 * 1024`. -/
theorem huge_heap_size_wraps :
    (readProcSmaps Globals.initial (some hugeHeapReport) 0 0).2.memoryMap
      = [⟨0x10000000, 0x10000000, 0x13, "[heap]"⟩] ∧
    (4194304 : Nat) < 8388608 ∧
    MapSegment.size ⟨0x10000000, 0x10000000, 0x13, "[heap]"⟩ = 0 ∧
    (4194304 * 1024 : Nat) ≠ 0 := by
  decide

/-! ### C18: the bit that is flipped -/

theorem randomBitOf_lt (r : Nat) : randomBitOf r < 64 := by
  unfold randomBitOf
  exact Nat.mod_lt _ (by decide)

theorem injectValOf_eq (b : Nat) (hb : b < 64) : injectValOf b = 2 ^ b := by
  unfold injectValOf u64
  rw [Nat.one_shiftLeft]
  exact Nat.mod_eq_of_lt (Nat.pow_lt_pow_right (by decide) hb)

theorem flip_testBit (w b i : Nat) (hb : b < 64) :
    (flip w (injectValOf b)).testBit i = if i = b then !(w.testBit i) else w.testBit i := by
  unfold flip
  rw [Nat.testBit_xor, injectValOf_eq b hb, Nat.testBit_two_pow]
  by_cases h : i = b
  · subst h; simp
  · have h' : ¬ b = i := fun e => h e.symm
    simp [h, h']

theorem flip_lt (w b : Nat) (hw : w < 2 ^ 64) (hb : b < 64) :
    flip w (injectValOf b) < 2 ^ 64 := by
  unfold flip
  apply Nat.xor_lt_two_pow hw
  rw [injectValOf_eq b hb]
  exact Nat.pow_lt_pow_right (by decide) hb

/-- C18.  For every word `w` and every value `r` of the random draw, the bit
number `(r >> 2) % 64` is below 64, and the word after the mutation differs from
`w` in exactly that bit position and in no other; a 64-bit word stays a 64-bit
word. -/
theorem flip_changes_exactly_one_bit (w r : Nat) :
    randomBitOf r < 64 ∧
    (∀ i, (flip w (injectValOf (randomBitOf r))).testBit i
      = if i = randomBitOf r then !(w.testBit i) else w.testBit i) ∧
    (w < 2 ^ 64 → flip w (injectValOf (randomBitOf r)) < 2 ^ 64) :=
  ⟨randomBitOf_lt r, fun i => flip_testBit w _ i (randomBitOf_lt r),
    fun hw => flip_lt w _ hw (randomBitOf_lt r)⟩

/-- C18, witness: the draw `22` gives bit 5, and `0xff` becomes `0xdf`. -/
theorem flip_changes_exactly_one_bit_witness :
    randomBitOf 22 = 5 ∧ flip 0xff (injectValOf (randomBitOf 22)) = 0xdf ∧
    randomBitOf 22 < 64 ∧
    (∀ i, (flip 0xff (injectValOf (randomBitOf 22))).testBit i
      = if i = randomBitOf 22 then !((0xff : Nat).testBit i) else (0xff : Nat).testBit i) ∧
    flip 0xff (injectValOf (randomBitOf 22)) < 2 ^ 64 :=
  ⟨by decide, by decide, (flip_changes_exactly_one_bit 0xff 22).1,
    (flip_changes_exactly_one_bit 0xff 22).2.1,
    (flip_changes_exactly_one_bit 0xff 22).2.2 (by decide)⟩

/-! ### C19: the alignment mask -/

theorem addressMask_eq : addressMask = 2 ^ 64 - 8 := by decide

theorem and_addressMask (x : Nat) (hx : x < 2 ^ 64) : x &&& addressMask = x - x % 8 := by
  rw [addressMask_eq]
  exact and_high_mask x 3 hx (by decide)

theorem and_addressMask_testBit (x i : Nat) (hx : x < 2 ^ 64) :
    (x &&& addressMask).testBit i = (decide (3 ≤ i) && x.testBit i) := by
  rw [and_addressMask x hx]
  have h3 : x - x % 8 = 2 ^ 3 * (x / 2 ^ 3) := by
    have := Nat.mod_add_div x 8
    omega
  rw [h3, Nat.testBit_mul_pow_two, ← Nat.shiftRight_eq_div_pow, Nat.testBit_shiftRight]
  by_cases h : 3 ≤ i
  · have e : 3 + (i - 3) = i := by omega
    simp [h, e]
  · simp [h]

theorem add64_lt (a b : Nat) : add64 a b < 2 ^ 64 := by
  unfold add64
  exact Nat.mod_lt _ (by decide)

/-- C19.  The mask `(~0)^0x7`, computed in `int` and converted to
`unsigned long`, is `2 ^ 64 - 8`.  For every in-segment offset and every
`beginAddress`, masking their 64-bit sum rounds it down to a multiple of 8: bits
0 to 2 are cleared and every higher bit is kept.  The pointer that the sampler
resolves is the value so rounded. -/
theorem resolved_pointer_rounds_down (offset beginAddress : Nat) :
    addressMask = 2 ^ 64 - 8 ∧
    add64 offset beginAddress &&& addressMask
      = add64 offset beginAddress - add64 offset beginAddress % 8 ∧
    (∀ i, (add64 offset beginAddress &&& addressMask).testBit i
      = (decide (3 ≤ i) && (add64 offset beginAddress).testBit i)) ∧
    (∀ ty cat a seg rs, walk ty a cat 0 = (some seg, rs) →
      resolve ty cat a
        = some (seg, add64 (sub64 a (sub64 rs seg.size)) seg.beginAddress
            - add64 (sub64 a (sub64 rs seg.size)) seg.beginAddress % 8)) := by
  refine ⟨addressMask_eq, and_addressMask _ (add64_lt _ _),
    fun i => and_addressMask_testBit _ i (add64_lt _ _), ?_⟩
  intro ty cat a seg rs hw
  unfold resolve
  rw [hw]
  simp only
  rw [and_addressMask _ (add64_lt _ _)]

/-- C19, witness: offset `0x805` in a segment that begins at `0x1000` gives
`0x1800`, and the draw 5000 on `twoDataGlobals` resolves to `0x4388`. -/
theorem resolved_pointer_rounds_down_witness :
    add64 0x805 0x1000 &&& addressMask = 0x1800 ∧
    walk injectDATA 5000 twoDataGlobals.memoryMap 0
      = (some ⟨0x4000, 0x6000, 0x13, "/bin/app"⟩, 12288) ∧
    resolve injectDATA twoDataGlobals.memoryMap 5000
      = some (⟨0x4000, 0x6000, 0x13, "/bin/app"⟩, 0x4388) ∧
    add64 0x805 0x1000 &&& addressMask = add64 0x805 0x1000 - add64 0x805 0x1000 % 8 :=
  ⟨by decide, by decide,
    (resolved_pointer_rounds_down 0x805 0x1000).2.2.2 injectDATA twoDataGlobals.memoryMap 5000
      ⟨0x4000, 0x6000, 0x13, "/bin/app"⟩ 12288 (by decide),
    (resolved_pointer_rounds_down 0x805 0x1000).2.1⟩

/-! ### C20: refinement only shrinks a region -/

/-- The appended descriptor lies inside the reported region whenever the
declared size held in `absSize` is not larger than the reported extent. -/
theorem newSegment_within (loc : Locals) (h : Header)
    (hb : h.beginAddr < 2 ^ 64) (he : h.endAddr < 2 ^ 64)
    (hsz : loc.absSize * 1024 ≤ h.endAddr - h.beginAddr) :
    h.beginAddr ≤ (newSegment loc h).beginAddress ∧
    (newSegment loc h).endAddress ≤ h.endAddr := by
  have hr : mul32 loc.rssSize 1024 ≤ loc.rssSize * 1024 := Nat.mod_le _ _
  unfold newSegment adjust
  generalize mul32 loc.rssSize 1024 = r at hr
  by_cases hlt : loc.rssSize < loc.absSize
  · simp only [hlt, if_true]
    split_ifs <;> simp only [u64, sub64, add64] <;> omega
  · simp only [hlt, if_false, u64]
    omega

theorem nextLocals_absSize_le (loc : Locals) (h : Header) (kb : Nat) (rssLine : Line) :
    (nextLocals loc h (Line.sizeKb kb) rssLine).absSize ≤ kb :=
  Nat.mod_le kb (2 ^ 32)

/-- C20.  For every reported region whose size line declares `kb` KB with
`kb * 1024 = endAddr - beginAddr`, and whatever the line read for the resident
size, the appended descriptor lies inside the reported region: reported
`beginAddr <= beginAddress`, `endAddress <=` reported `endAddr`, and every
address it covers is covered by the reported region. -/
theorem refinement_only_shrinks (loc : Locals) (h : Header) (kb : Nat) (rssLine : Line)
    (hb : h.beginAddr < 2 ^ 64) (he : h.endAddr < 2 ^ 64)
    (hsz : kb * 1024 = h.endAddr - h.beginAddr) :
    h.beginAddr ≤ (newSegment (nextLocals loc h (Line.sizeKb kb) rssLine) h).beginAddress ∧
    (newSegment (nextLocals loc h (Line.sizeKb kb) rssLine) h).endAddress ≤ h.endAddr ∧
    ∀ x, (newSegment (nextLocals loc h (Line.sizeKb kb) rssLine) h).beginAddress ≤ x →
      x < (newSegment (nextLocals loc h (Line.sizeKb kb) rssLine) h).endAddress →
      h.beginAddr ≤ x ∧ x < h.endAddr := by
  have hle := nextLocals_absSize_le loc h kb rssLine
  have key := newSegment_within (nextLocals loc h (Line.sizeKb kb) rssLine) h hb he
    (by omega)
  exact ⟨key.1, key.2, fun x h1 h2 => ⟨le_trans key.1 h1, lt_of_lt_of_le h2 key.2⟩⟩

/-- C20, witness: the heap region `[0x7000, 0x9000)` declared with 8 kB, of which
4 kB are resident, becomes `[0x7000, 0x8000)`. -/
theorem refinement_only_shrinks_witness :
    newSegment (nextLocals appLocals heapHeader (Line.sizeKb 8) (Line.rssKb 4)) heapHeader
      = ⟨0x7000, 0x8000, 0x13, "[heap]"⟩ ∧
    heapHeader.beginAddr
      ≤ (newSegment (nextLocals appLocals heapHeader (Line.sizeKb 8) (Line.rssKb 4))
          heapHeader).beginAddress ∧
    (newSegment (nextLocals appLocals heapHeader (Line.sizeKb 8) (Line.rssKb 4))
        heapHeader).endAddress ≤ heapHeader.endAddr ∧
    ∀ x, (newSegment (nextLocals appLocals heapHeader (Line.sizeKb 8) (Line.rssKb 4))
        heapHeader).beginAddress ≤ x →
      x < (newSegment (nextLocals appLocals heapHeader (Line.sizeKb 8) (Line.rssKb 4))
        heapHeader).endAddress →
      heapHeader.beginAddr ≤ x ∧ x < heapHeader.endAddr :=
  ⟨by decide, refinement_only_shrinks appLocals heapHeader 8 (Line.rssKb 4) (by decide)
    (by decide) (by decide)⟩


/-! ### C21: the word lies in the elevated page -/

/-- Every address that the sampler resolves is a 64-bit multiple of 8. -/
theorem resolve_aligned (ty : InjectMemoryType) (cat : List MapSegment) (a : Nat)
    (map : MapSegment) (injectPtr : Nat) (h : resolve ty cat a = some (map, injectPtr)) :
    injectPtr < 2 ^ 64 ∧ injectPtr % 8 = 0 := by
  unfold resolve at h
  rcases hw : walk ty a cat 0 with ⟨o, rs⟩
  rw [hw] at h
  cases o with
  | none => simp at h
  | some seg =>
    simp only [Option.some.injEq, Prod.mk.injEq] at h
    obtain ⟨_, hp⟩ := h
    rw [and_addressMask _ (add64_lt _ _)] at hp
    have hlt := add64_lt (sub64 a (sub64 rs seg.size)) seg.beginAddress
    omega

/-- Rounding down to a multiple of `2 ^ k` clears the bits below `k` and keeps
the others. -/
theorem round_down_testBit (x k i : Nat) :
    (x - x % 2 ^ k).testBit i = (decide (k ≤ i) && x.testBit i) := by
  have h3 : x - x % 2 ^ k = 2 ^ k * (x / 2 ^ k) := by
    have := Nat.mod_add_div x (2 ^ k)
    omega
  rw [h3, Nat.testBit_mul_pow_two, ← Nat.shiftRight_eq_div_pow, Nat.testBit_shiftRight]
  by_cases h : k ≤ i
  · have e : k + (i - k) = i := by omega
    simp [h, e]
  · simp [h]

/-- The eight bytes of an aligned word lie in the page of its first byte. -/
theorem word_in_page (p k : Nat) (hal : p % 8 = 0) (hk3 : 3 ≤ k) :
    ∀ j, j < 8 → p - p % 2 ^ k ≤ p + j ∧ p + j < p - p % 2 ^ k + 2 ^ k := by
  have hdvd : 8 ∣ 2 ^ k := by
    have : (8:Nat) = 2 ^ 3 := by decide
    rw [this]
    exact Nat.pow_dvd_pow 2 hk3
  have hr8 : p % 2 ^ k % 8 = 0 := by
    rw [Nat.mod_mod_of_dvd p hdvd]
    exact hal
  have hx8 : 2 ^ k % 8 = 0 := Nat.mod_eq_zero_of_dvd hdvd
  have hrlt : p % 2 ^ k < 2 ^ k := Nat.mod_lt _ (two_pow_pos_nat k)
  have hrle : p % 2 ^ k ≤ p := Nat.mod_le _ _
  intro j hj
  generalize p % 2 ^ k = r at hr8 hrlt hrle
  generalize (2:Nat) ^ k = x at hx8 hrlt
  omega

/-- The events of the writer hold at most one store, the one at `injectPtr`. -/
theorem protectedWrite_store_address (m : Machine) (systemPageSize : Nat) (ok1 ok2 : Bool)
    (map : MapSegment) (injectPtr randomBit a v : Nat)
    (h : Event.store a v ∈ (protectedWrite m systemPageSize ok1 ok2 map injectPtr
      randomBit).events) : a = injectPtr := by
  unfold protectedWrite at h
  simp only at h
  split_ifs at h <;> simp [Outcome.events] at h <;> exact h.1

/-- For a segment without write permission the writer starts with the `mprotect`
call on `pagePtr` that adds write permission. -/
theorem protectedWrite_first_event (m : Machine) (systemPageSize : Nat) (ok1 ok2 : Bool)
    (map : MapSegment) (injectPtr randomBit : Nat) (hro : map.permissions &&& PERM_WRITE = 0) :
    ∃ rest, (protectedWrite m systemPageSize ok1 ok2 map injectPtr randomBit).events
      = Event.mprotect (pagePtrOf systemPageSize injectPtr) systemPageSize
          (pagePermsOf map ||| PROT_WRITE) :: rest := by
  unfold protectedWrite
  simp only [hro, decide_True, if_true]
  split_ifs
  · exact ⟨_, rfl⟩
  · exact ⟨_, rfl⟩

/-- C21.  For every address that the sampler resolves (it is a multiple of 8), every
segment without write permission and every page size `2 ^ k` with `3 <= k < 64`:
the page `pagePtr` on which the writer calls `mprotect` is the address with its
`k` low bits cleared, that call (one page long, adding write permission) is the
first thing the writer does, and all 8 bytes of every word the writer stores to
lie in `[pagePtr, pagePtr + 2 ^ k)`. -/
theorem word_within_elevated_page (ty : InjectMemoryType) (cat : List MapSegment) (a : Nat)
    (m : Machine) (map : MapSegment) (injectPtr randomBit k : Nat) (ok1 ok2 : Bool)
    (hres : resolve ty cat a = some (map, injectPtr))
    (hro : map.permissions &&& PERM_WRITE = 0) (hk3 : 3 ≤ k) (hk : k < 64) :
    injectPtr % 8 = 0 ∧
    (∀ i, (pagePtrOf (2 ^ k) injectPtr).testBit i = (decide (k ≤ i) && injectPtr.testBit i)) ∧
    (∃ rest, (protectedWrite m (2 ^ k) ok1 ok2 map injectPtr randomBit).events
      = Event.mprotect (pagePtrOf (2 ^ k) injectPtr) (2 ^ k)
          (pagePermsOf map ||| PROT_WRITE) :: rest) ∧
    (∀ addr v, Event.store addr v
        ∈ (protectedWrite m (2 ^ k) ok1 ok2 map injectPtr randomBit).events →
      ∀ j, j < 8 → pagePtrOf (2 ^ k) injectPtr ≤ addr + j ∧
        addr + j < pagePtrOf (2 ^ k) injectPtr + 2 ^ k) := by
  obtain ⟨hlt, hal⟩ := resolve_aligned ty cat a map injectPtr hres
  have hpage := pagePtrOf_eq injectPtr k hlt hk
  refine ⟨hal, ?_, protectedWrite_first_event m _ ok1 ok2 map injectPtr randomBit hro, ?_⟩
  · intro i
    rw [hpage]
    exact round_down_testBit injectPtr k i
  · intro addr v hmem j hj
    have := protectedWrite_store_address m _ ok1 ok2 map injectPtr randomBit addr v hmem
    subst this
    rw [hpage]
    exact word_in_page addr k hal hk3 j hj

/-- C21, witness: in the read-execute segment `[0x1000, 0x2000)` the offset `0x800`
resolves to `0x1800`; with pages of 4096 bytes the page is `0x1000` and the word
`[0x1800, 0x1808)` lies in `[0x1000, 0x2000)`. -/
theorem word_within_elevated_page_witness :
    resolve injectCODE [codeSegment] 0x800 = some (codeSegment, 0x1800) ∧
    pagePtrOf (2 ^ 12) 0x1800 = 0x1000 ∧
    (protectedWrite (onePageMachine 0x1000 5) (2 ^ 12) true true codeSegment 0x1800 0).events
      = [Event.mprotect 0x1000 4096 7, Event.store 0x1800 1, Event.mprotect 0x1000 4096 5] ∧
    0x1800 % 8 = 0 ∧
    (∀ i, (pagePtrOf (2 ^ 12) 0x1800).testBit i
      = (decide (12 ≤ i) && (0x1800 : Nat).testBit i)) ∧
    (∃ rest, (protectedWrite (onePageMachine 0x1000 5) (2 ^ 12) true true codeSegment
        0x1800 0).events
      = Event.mprotect (pagePtrOf (2 ^ 12) 0x1800) (2 ^ 12)
          (pagePermsOf codeSegment ||| PROT_WRITE) :: rest) ∧
    (∀ addr v, Event.store addr v
        ∈ (protectedWrite (onePageMachine 0x1000 5) (2 ^ 12) true true codeSegment
            0x1800 0).events →
      ∀ j, j < 8 → pagePtrOf (2 ^ 12) 0x1800 ≤ addr + j ∧
        addr + j < pagePtrOf (2 ^ 12) 0x1800 + 2 ^ 12) :=
  ⟨by decide, by decide, by decide,
    word_within_elevated_page injectCODE [codeSegment] 0x800 (onePageMachine 0x1000 5)
      codeSegment 0x1800 0 12 true true (by decide) (by decide) (by decide) (by decide)⟩

end ErrorInjector
